import Mathlib

/-!
Verification of the transactional file-system layer in
src/dist/component/transaction.rs (Transaction, ChangedItem, rollback on drop).

The file system under the install prefix is modelled shallowly: every path is
the list of its components relative to the install prefix (the path resolver
collaborator is deterministic and side-effect free, so resolution is modelled
as the identity on relative components).  A node at a path is either a plain
file with string content, or a directory tree placed atomically by
copy_dir/move_dir; the directory-tree primitives of the utils collaborator
(copy_dir, rename_dir, remove_dir) act on whole trees, so a tree is one node.
Intermediate directories created by ensure_dir_exists are tracked in a
separate dir set (they are never rolled back, matching the FIXME in the
source).  The temp-storage collaborator is modelled from its boundary
specification: new_file / new_directory hand out the next value of a fresh
counter; backup content lives in tempFile / tempTree maps.
-/

namespace RustupTx

/-- A node physically present at a path under the install prefix:
a plain file with its bytes, or a directory tree placed there atomically
(its whole content is one opaque value, since the utils collaborator
copies, renames and removes trees as a unit). -/
inductive FsNode where
  | file (content : String)
  | tree (content : String)
deriving DecidableEq

/-- The state of the outside world the transaction core touches: the
install-prefix subtree (nodes and intermediate directories) and the
temp-storage collaborator (backup files, backup directories, fresh counter). -/
structure World where
  nodes : List String → Option FsNode
  dirs : List String → Bool
  tempFile : Nat → Option String
  tempTree : Nat → Option String
  tempNext : Nat

def World.updNode (w : World) (p : List String) (n : Option FsNode) : World :=
  { w with nodes := fun q => if q = p then n else w.nodes q }

def World.addDirs (w : World) (d : List String) : World :=
  { w with dirs := fun q => q.isPrefixOf d || w.dirs q }

def World.updTempFile (w : World) (i : Nat) (v : Option String) : World :=
  { w with tempFile := fun j => if j = i then v else w.tempFile j }

def World.updTempTree (w : World) (i : Nat) (v : Option String) : World :=
  { w with tempTree := fun j => if j = i then v else w.tempTree j }

def World.bumpTemp (w : World) : World :=
  { w with tempNext := w.tempNext + 1 }

/-- A world with an empty install prefix (the prefix root directory itself
exists) and an untouched temp area. -/
def World.empty : World where
  nodes := fun _ => none
  dirs := fun q => q.isEmpty
  tempFile := fun _ => none
  tempTree := fun _ => none
  tempNext := 0

/-- utils::path_exists at a prefix-relative path. -/
def pathExists (w : World) (p : List String) : Bool :=
  (w.nodes p).isSome || w.dirs p

/-- utils::is_file at a prefix-relative path. -/
def isFile (w : World) (p : List String) : Bool :=
  match w.nodes p with
  | some (.file _) => true
  | _ => false

/-- Whether the node at a path is a directory tree. -/
def isTreeAt (w : World) (p : List String) : Bool :=
  match w.nodes p with
  | some (.tree _) => true
  | _ => false

/-- Content of the plain file at a path, if any. -/
def fileContent (w : World) (p : List String) : Option String :=
  match w.nodes p with
  | some (.file c) => some c
  | _ => none

/-- Path::parent for a prefix-relative path; none only for the prefix root
itself (whose parent lies outside the modelled subtree). -/
def parentOf (p : List String) : Option (List String) :=
  if p = [] then none else some p.dropLast

/-- The classified errors this core produces (RustupError variants plus
propagated I/O errors from the utils primitives, tagged with the failing
operation). -/
inductive TxErr where
  | componentConflict (name : String) (path : List String)
  | componentMissingFile (name : String) (path : List String)
  | componentMissingDir (name : String) (path : List String)
  | ioError (op : String)
deriving DecidableEq

/-- Notifications emitted through the notify_handler callback on the drop
path. -/
inductive Notification where
  | rollingBack
  | nonFatalError (e : TxErr)
deriving DecidableEq

/-- utils::remove_file: deletes the plain file at a path, fails otherwise. -/
def utilsRemoveFile (p : List String) (w : World) : Except TxErr Unit × World :=
  match w.nodes p with
  | some (.file _) => (.ok (), w.updNode p none)
  | _ => (.error (.ioError "remove_file"), w)

/-- utils::remove_dir: recursively deletes the directory tree at a path,
fails otherwise. -/
def utilsRemoveDir (p : List String) (w : World) : Except TxErr Unit × World :=
  match w.nodes p with
  | some (.tree _) => (.ok (), w.updNode p none)
  | _ => (.error (.ioError "remove_dir"), w)

/-- utils::rename_file from the install prefix into a temp backup file
(the backup target is on the same volume and was created empty by the
allocator, so the rename overwrites it). -/
def moveFileToBackup (p : List String) (i : Nat) (w : World) :
    Except TxErr Unit × World :=
  match w.nodes p with
  | some (.file c) => (.ok (), (w.updNode p none).updTempFile i (some c))
  | _ => (.error (.ioError "rename_file"), w)

/-- utils::rename_dir from the install prefix to the bk child of a temp
backup directory. -/
def moveTreeToBackup (p : List String) (i : Nat) (w : World) :
    Except TxErr Unit × World :=
  match w.nodes p with
  | some (.tree c) => (.ok (), (w.updNode p none).updTempTree i (some c))
  | _ => (.error (.ioError "rename_dir"), w)

/-- utils::rename_file from a temp backup file back onto a prefix path
(overwrites a plain file, fails onto a directory). -/
def restoreFileFromBackup (i : Nat) (p : List String) (w : World) :
    Except TxErr Unit × World :=
  match w.tempFile i with
  | none => (.error (.ioError "rename_file"), w)
  | some c =>
    if isTreeAt w p then (.error (.ioError "rename_file"), w)
    else (.ok (), (w.updTempFile i none).updNode p (some (.file c)))

/-- utils::rename_dir from the bk child of a temp backup directory back onto
a prefix path. -/
def restoreTreeFromBackup (i : Nat) (p : List String) (w : World) :
    Except TxErr Unit × World :=
  match w.tempTree i with
  | none => (.error (.ioError "rename_dir"), w)
  | some c =>
    if (w.nodes p).isSome then (.error (.ioError "rename_dir"), w)
    else (.ok (), (w.updTempTree i none).updNode p (some (.tree c)))

/-- temp::Cfg::new_file: allocates the next fresh backup name and creates an
empty file there. -/
def newTempFile (w : World) : Nat × World :=
  (w.tempNext, (w.updTempFile w.tempNext (some "")).bumpTemp)

/-- temp::Cfg::new_directory: allocates the next fresh backup name and
creates an empty directory there (its bk child is not yet populated). -/
def newTempDir (w : World) : Nat × World :=
  (w.tempNext, w.bumpTemp)

/-- utils::copy_file from an external source path into the prefix; the
source is given by its content, none meaning nothing readable is there. -/
def utilsCopyFileIn (src : Option String) (p : List String) (w : World) :
    Except TxErr Unit × World :=
  match src with
  | some c => (.ok (), w.updNode p (some (.file c)))
  | none => (.error (.ioError "copy_file"), w)

/-- utils::copy_dir from an external source tree into the prefix. -/
def utilsCopyDirIn (src : Option String) (p : List String) (w : World) :
    Except TxErr Unit × World :=
  match src with
  | some c => (.ok (), w.updNode p (some (.tree c)))
  | none => (.error (.ioError "copy_dir"), w)

/-- utils::rename_file from an external source path into the prefix
(the source, outside the modelled subtree, is consumed). -/
def utilsMoveFileIn (src : Option String) (p : List String) (w : World) :
    Except TxErr Unit × World :=
  match src with
  | some c => (.ok (), w.updNode p (some (.file c)))
  | none => (.error (.ioError "rename_file"), w)

/-- utils::rename_dir from an external source tree into the prefix. -/
def utilsMoveDirIn (src : Option String) (p : List String) (w : World) :
    Except TxErr Unit × World :=
  match src with
  | some c => (.ok (), w.updNode p (some (.tree c)))
  | none => (.error (.ioError "rename_dir"), w)

/-- utils::write_str through the File handle returned by add_file; the ok
flag is the outcome of this external primitive (false models an
environmental failure such as a full disk, which leaves the file with the
bytes written so far, here none). -/
def utilsWriteStr (p : List String) (content : String) (ok : Bool) (w : World) :
    Except TxErr Unit × World :=
  if ok then (.ok (), w.updNode p (some (.file content)))
  else (.error (.ioError "write_str"), w)

/-- The set of fundamental operations recorded in a Transaction, one
constructor per variant of the source enum ChangedItem; backups are the
fresh names handed out by the temp-storage collaborator. -/
inductive ChangedItem where
  | addedFile (path : List String)
  | addedDir (path : List String)
  | removedFile (path : List String) (backup : Nat)
  | removedDir (path : List String) (backup : Nat)
  | modifiedFile (path : List String) (backup : Option Nat)
deriving DecidableEq

/-- ChangedItem::dest_abs_path: fails with ComponentConflict if anything
exists at the destination, otherwise ensures the parent directory exists. -/
def ChangedItem.dest_abs_path (component : String) (relpath : List String)
    (w : World) : Except TxErr Unit × World :=
  if pathExists w relpath then
    (.error (.componentConflict component relpath), w)
  else
    match parentOf relpath with
    | some d => (.ok (), w.addDirs d)
    | none => (.ok (), w)

/-- ChangedItem::add_file: destination check, then File::create of an empty
file. -/
def ChangedItem.add_file (component : String) (relpath : List String)
    (w : World) : Except TxErr ChangedItem × World :=
  match ChangedItem.dest_abs_path component relpath w with
  | (.error e, w1) => (.error e, w1)
  | (.ok _, w1) => (.ok (.addedFile relpath), w1.updNode relpath (some (.file "")))

/-- ChangedItem::copy_file. -/
def ChangedItem.copy_file (component : String) (relpath : List String)
    (src : Option String) (w : World) : Except TxErr ChangedItem × World :=
  match ChangedItem.dest_abs_path component relpath w with
  | (.error e, w1) => (.error e, w1)
  | (.ok _, w1) =>
    match utilsCopyFileIn src relpath w1 with
    | (.error e, w2) => (.error e, w2)
    | (.ok _, w2) => (.ok (.addedFile relpath), w2)

/-- ChangedItem::copy_dir. -/
def ChangedItem.copy_dir (component : String) (relpath : List String)
    (src : Option String) (w : World) : Except TxErr ChangedItem × World :=
  match ChangedItem.dest_abs_path component relpath w with
  | (.error e, w1) => (.error e, w1)
  | (.ok _, w1) =>
    match utilsCopyDirIn src relpath w1 with
    | (.error e, w2) => (.error e, w2)
    | (.ok _, w2) => (.ok (.addedDir relpath), w2)

/-- ChangedItem::move_file. -/
def ChangedItem.move_file (component : String) (relpath : List String)
    (src : Option String) (w : World) : Except TxErr ChangedItem × World :=
  match ChangedItem.dest_abs_path component relpath w with
  | (.error e, w1) => (.error e, w1)
  | (.ok _, w1) =>
    match utilsMoveFileIn src relpath w1 with
    | (.error e, w2) => (.error e, w2)
    | (.ok _, w2) => (.ok (.addedFile relpath), w2)

/-- ChangedItem::move_dir. -/
def ChangedItem.move_dir (component : String) (relpath : List String)
    (src : Option String) (w : World) : Except TxErr ChangedItem × World :=
  match ChangedItem.dest_abs_path component relpath w with
  | (.error e, w1) => (.error e, w1)
  | (.ok _, w1) =>
    match utilsMoveDirIn src relpath w1 with
    | (.error e, w2) => (.error e, w2)
    | (.ok _, w2) => (.ok (.addedDir relpath), w2)

/-- ChangedItem::remove_file: note that the backup is allocated from the
temp collaborator before the existence check, exactly as in the source. -/
def ChangedItem.remove_file (component : String) (relpath : List String)
    (w : World) : Except TxErr ChangedItem × World :=
  let a := newTempFile w
  if ! pathExists a.2 relpath then
    (.error (.componentMissingFile component relpath), a.2)
  else
    match moveFileToBackup relpath a.1 a.2 with
    | (.error e, w2) => (.error e, w2)
    | (.ok _, w2) => (.ok (.removedFile relpath a.1), w2)

/-- ChangedItem::remove_dir: the backup directory is likewise allocated
before the existence check. -/
def ChangedItem.remove_dir (component : String) (relpath : List String)
    (w : World) : Except TxErr ChangedItem × World :=
  let a := newTempDir w
  if ! pathExists a.2 relpath then
    (.error (.componentMissingDir component relpath), a.2)
  else
    match moveTreeToBackup relpath a.1 a.2 with
    | (.error e, w2) => (.error e, w2)
    | (.ok _, w2) => (.ok (.removedDir relpath a.1), w2)

/-- ChangedItem::modify_file: if a file exists its bytes are copied to a
fresh backup, otherwise the parent directory is ensured. -/
def ChangedItem.modify_file (relpath : List String) (w : World) :
    Except TxErr ChangedItem × World :=
  if isFile w relpath then
    let a := newTempFile w
    match fileContent a.2 relpath with
    | some c => (.ok (.modifiedFile relpath (some a.1)), a.2.updTempFile a.1 (some c))
    | none => (.error (.ioError "copy_file"), a.2)
  else
    match parentOf relpath with
    | some d => (.ok (.modifiedFile relpath none), w.addDirs d)
    | none => (.ok (.modifiedFile relpath none), w)

/-- ChangedItem::roll_back: the per-variant inversion of one record. -/
def ChangedItem.roll_back (item : ChangedItem) (w : World) :
    Except TxErr Unit × World :=
  match item with
  | .addedFile p => utilsRemoveFile p w
  | .addedDir p => utilsRemoveDir p w
  | .removedFile p tmp => restoreFileFromBackup tmp p w
  | .modifiedFile p (some tmp) => restoreFileFromBackup tmp p w
  | .removedDir p tmp => restoreTreeFromBackup tmp p w
  | .modifiedFile p none =>
    if isFile w p then utilsRemoveFile p w else (.ok (), w)

/-- A caller-supplied std::path::Path: whether it is absolute, and its
components relative to the install prefix when relative.  Rust's
Path::is_relative is true for the empty path. -/
structure RustPath where
  absolute : Bool
  components : List String
deriving DecidableEq

def RustPath.is_relative (p : RustPath) : Bool := ! p.absolute

/-- The outcome of one public Transaction operation: the assertion at the
API boundary fired (a Rust panic, before any I/O), a classified error, or
success. -/
inductive Outcome (α : Type) where
  | panicked
  | error (e : TxErr)
  | ok (a : α)
deriving DecidableEq

def Outcome.isErr {α : Type} : Outcome α → Bool
  | .error _ => true
  | _ => false

/-- The Transaction: the append-only log of completed changes plus the
commit flag (prefix, temp cfg and notify handler are the external
collaborators modelled through World and the notification lists). -/
structure Transaction where
  changes : List ChangedItem
  committed : Bool
deriving DecidableEq

/-- Transaction::new. -/
def Transaction.new : Transaction where
  changes := []
  committed := false

/-- Transaction::change: push one record at the end of the log. -/
def Transaction.change (t : Transaction) (item : ChangedItem) : Transaction :=
  { t with changes := t.changes ++ [item] }

/-- Transaction::commit. -/
def Transaction.commit (t : Transaction) : Transaction :=
  { t with committed := true }

/-- The shared shape of the public mutating operations: assert that the
path is relative (a panic otherwise, before any I/O), run the ChangedItem
constructor, and on success push exactly the one record it built. -/
def Transaction.lift (t : Transaction) (rp : RustPath)
    (f : List String → World → Except TxErr ChangedItem × World) (w : World) :
    Outcome Unit × Transaction × World :=
  if rp.is_relative then
    match f rp.components w with
    | (.ok item, w1) => (.ok (), t.change item, w1)
    | (.error e, w1) => (.error e, t, w1)
  else (.panicked, t, w)

/-- Transaction::add_file (the returned File handle is the path itself in
this model). -/
def Transaction.add_file (t : Transaction) (component : String)
    (rp : RustPath) (w : World) : Outcome Unit × Transaction × World :=
  t.lift rp (fun p w1 => ChangedItem.add_file component p w1) w

/-- Transaction::copy_file. -/
def Transaction.copy_file (t : Transaction) (component : String)
    (rp : RustPath) (src : Option String) (w : World) :
    Outcome Unit × Transaction × World :=
  t.lift rp (fun p w1 => ChangedItem.copy_file component p src w1) w

/-- Transaction::copy_dir. -/
def Transaction.copy_dir (t : Transaction) (component : String)
    (rp : RustPath) (src : Option String) (w : World) :
    Outcome Unit × Transaction × World :=
  t.lift rp (fun p w1 => ChangedItem.copy_dir component p src w1) w

/-- Transaction::move_file. -/
def Transaction.move_file (t : Transaction) (component : String)
    (rp : RustPath) (src : Option String) (w : World) :
    Outcome Unit × Transaction × World :=
  t.lift rp (fun p w1 => ChangedItem.move_file component p src w1) w

/-- Transaction::move_dir. -/
def Transaction.move_dir (t : Transaction) (component : String)
    (rp : RustPath) (src : Option String) (w : World) :
    Outcome Unit × Transaction × World :=
  t.lift rp (fun p w1 => ChangedItem.move_dir component p src w1) w

/-- Transaction::remove_file. -/
def Transaction.remove_file (t : Transaction) (component : String)
    (rp : RustPath) (w : World) : Outcome Unit × Transaction × World :=
  t.lift rp (fun p w1 => ChangedItem.remove_file component p w1) w

/-- Transaction::remove_dir. -/
def Transaction.remove_dir (t : Transaction) (component : String)
    (rp : RustPath) (w : World) : Outcome Unit × Transaction × World :=
  t.lift rp (fun p w1 => ChangedItem.remove_dir component p w1) w

/-- Transaction::modify_file. -/
def Transaction.modify_file (t : Transaction) (rp : RustPath) (w : World) :
    Outcome Unit × Transaction × World :=
  t.lift rp (fun p w1 => ChangedItem.modify_file p w1) w

/-- Transaction::write_file: add_file, push the record, then write the
content through the handle; the record stays in the log even when the
content write fails. -/
def Transaction.write_file (t : Transaction) (component : String)
    (rp : RustPath) (content : String) (wstrOk : Bool) (w : World) :
    Outcome Unit × Transaction × World :=
  if rp.is_relative then
    match ChangedItem.add_file component rp.components w with
    | (.error e, w1) => (.error e, t, w1)
    | (.ok item, w1) =>
      match utilsWriteStr rp.components content wstrOk w1 with
      | (.ok _, w2) => (.ok (), t.change item, w2)
      | (.error e, w2) => (.error e, t.change item, w2)
  else (.panicked, t, w)

/-- The rollback loop of Drop for Transaction, already fed with the log in
the order the loop visits it (changes.iter().rev()).  Returns the final
world, the notifications emitted, and the records visited in order; a
failed inversion emits NonFatalError and the loop continues. -/
def rollBackAll : List ChangedItem → World →
    World × List Notification × List ChangedItem
  | [], w => (w, [], [])
  | item :: rest, w =>
    let step := ChangedItem.roll_back item w
    let r := rollBackAll rest step.2
    match step.1 with
    | .ok _ => (r.1, r.2.1, item :: r.2.2)
    | .error e => (r.1, Notification.nonFatalError e :: r.2.1, item :: r.2.2)

/-- Drop for Transaction: if not committed, emit RollingBack and invert the
log in reverse insertion order; a committed transaction does nothing.
Returns the final world and the notifications (there is no error result:
rollback failures are not propagated). -/
def Transaction.drop (t : Transaction) (w : World) : World × List Notification :=
  if t.committed then (w, [])
  else
    let r := rollBackAll t.changes.reverse w
    (r.1, Notification.rollingBack :: r.2.1)

/-- The sequence of records the drop rollback visits, in visit order. -/
def Transaction.dropTrace (t : Transaction) (w : World) : List ChangedItem :=
  if t.committed then [] else (rollBackAll t.changes.reverse w).2.2

/-- One step of a client script for the round-trip property: a public
Transaction call together with the content the caller then writes through
the handle or onto the prepared path. -/
inductive Op where
  | addFile (component : String) (relpath : List String) (content : String)
  | copyFile (component : String) (relpath : List String) (src : Option String)
  | copyDir (component : String) (relpath : List String) (src : Option String)
  | moveFile (component : String) (relpath : List String) (src : Option String)
  | moveDir (component : String) (relpath : List String) (src : Option String)
  | removeFile (component : String) (relpath : List String)
  | removeDir (component : String) (relpath : List String)
  | modifyFile (relpath : List String) (callerWrites : Option String)

def Op.path : Op → List String
  | .addFile _ p _ => p
  | .copyFile _ p _ => p
  | .copyDir _ p _ => p
  | .moveFile _ p _ => p
  | .moveDir _ p _ => p
  | .removeFile _ p => p
  | .removeDir _ p => p
  | .modifyFile p _ => p

/-- The caller re-creating and writing a file at a path prepared by
modify_file: File::create fails when a directory occupies the path (then
nothing happens), otherwise the file is created or truncated and written. -/
def callerCreateWrite (p : List String) (c : String) (w : World) : World :=
  if pathExists w p && ! isFile w p then w
  else w.updNode p (some (.file c))

def callerTouch (p : List String) (a : Option String) (w : World) : World :=
  match a with
  | some c => callerCreateWrite p c w
  | none => w

/-- Run one script step against the transaction: none when the Transaction
call does not succeed. -/
def applyOp (o : Op) (t : Transaction) (w : World) :
    Option (Transaction × World) :=
  match o with
  | .addFile comp p content =>
    match Transaction.add_file t comp ⟨false, p⟩ w with
    | (.ok _, t1, w1) => some (t1, w1.updNode p (some (.file content)))
    | _ => none
  | .copyFile comp p src =>
    match Transaction.copy_file t comp ⟨false, p⟩ src w with
    | (.ok _, t1, w1) => some (t1, w1)
    | _ => none
  | .copyDir comp p src =>
    match Transaction.copy_dir t comp ⟨false, p⟩ src w with
    | (.ok _, t1, w1) => some (t1, w1)
    | _ => none
  | .moveFile comp p src =>
    match Transaction.move_file t comp ⟨false, p⟩ src w with
    | (.ok _, t1, w1) => some (t1, w1)
    | _ => none
  | .moveDir comp p src =>
    match Transaction.move_dir t comp ⟨false, p⟩ src w with
    | (.ok _, t1, w1) => some (t1, w1)
    | _ => none
  | .removeFile comp p =>
    match Transaction.remove_file t comp ⟨false, p⟩ w with
    | (.ok _, t1, w1) => some (t1, w1)
    | _ => none
  | .removeDir comp p =>
    match Transaction.remove_dir t comp ⟨false, p⟩ w with
    | (.ok _, t1, w1) => some (t1, w1)
    | _ => none
  | .modifyFile p a =>
    match Transaction.modify_file t ⟨false, p⟩ w with
    | (.ok _, t1, w1) => some (t1, callerTouch p a w1)
    | _ => none

/-- Run a script; none as soon as one step fails. -/
def runOps : List Op → Transaction → World → Option (Transaction × World)
  | [], t, w => some (t, w)
  | o :: os, t, w =>
    match applyOp o t w with
    | some r => runOps os r.1 r.2
    | none => none

/-- The node at path q after running a script from a fresh Transaction and
then dropping the Transaction without commit. -/
def afterRollbackNodes (ops : List Op) (w : World) (q : List String) :
    Option (Option FsNode) :=
  Option.map (fun r => (Transaction.drop r.1 r.2).1.nodes q)
    (runOps ops Transaction.new w)

/-- Two relative paths are disjoint when neither is a prefix of the other
(in particular they are distinct). -/
def PathDisj (p q : List String) : Prop :=
  p.isPrefixOf q = false ∧ q.isPrefixOf p = false

instance (p q : List String) : Decidable (PathDisj p q) :=
  inferInstanceAs (Decidable (_ ∧ _))

/-- The log discipline of one public mutating operation with result r on a
transaction that was t before the call: success appends exactly one record
(the old log is a prefix and the length grew by one), an error or a
boundary panic leaves the Transaction exactly as it was. -/
def LogDiscipline (t : Transaction) (r : Outcome Unit × Transaction × World) : Prop :=
  (r.1 = .ok () → r.2.1.changes.length = t.changes.length + 1 ∧
    r.2.1.changes.take t.changes.length = t.changes) ∧
  (r.1.isErr = true → r.2.1 = t) ∧
  (r.1 = .panicked → r.2.1 = t)

/-- Frame of one successful script step on path p taking the world from w
to w1: the temp counter only grows, nodes at other paths are untouched, and
backups already allocated before the step are untouched. -/
def OpFrame (p : List String) (w w1 : World) : Prop :=
  w.tempNext ≤ w1.tempNext ∧
  (∀ x, x ≠ p → w1.nodes x = w.nodes x) ∧
  (∀ id, id < w.tempNext → w1.tempFile id = w.tempFile id) ∧
  (∀ id, id < w.tempNext → w1.tempTree id = w.tempTree id)

/-- Invertibility of the record r produced by one successful step on path p
that took the world from w to w1: from any later world v that still holds
the node the step left at p and the backups the step allocated, rolling r
back succeeds, restores the original node of w at p, touches no other path,
and touches no backup allocated before the step. -/
def RollbackOk (p : List String) (w w1 : World) (r : ChangedItem) : Prop :=
  ∀ v : World, v.nodes p = w1.nodes p →
    (∀ id, w.tempNext ≤ id → id < w1.tempNext → v.tempFile id = w1.tempFile id) →
    (∀ id, w.tempNext ≤ id → id < w1.tempNext → v.tempTree id = w1.tempTree id) →
    (ChangedItem.roll_back r v).1 = Except.ok () ∧
    (ChangedItem.roll_back r v).2.nodes p = w.nodes p ∧
    (∀ x, x ≠ p → (ChangedItem.roll_back r v).2.nodes x = v.nodes x) ∧
    (∀ id, id < w.tempNext →
      (ChangedItem.roll_back r v).2.tempFile id = v.tempFile id) ∧
    (∀ id, id < w.tempNext →
      (ChangedItem.roll_back r v).2.tempTree id = v.tempTree id)

end RustupTx

namespace RustupTx

theorem updNode_nodes (w : World) (p : List String) (n : Option FsNode) (q : List String) :
    (w.updNode p n).nodes q = if q = p then n else w.nodes q := rfl

theorem updNode_dirs (w : World) (p : List String) (n : Option FsNode) (q : List String) :
    (w.updNode p n).dirs q = w.dirs q := rfl

theorem updNode_tempFile (w : World) (p : List String) (n : Option FsNode) (j : Nat) :
    (w.updNode p n).tempFile j = w.tempFile j := rfl

theorem updNode_tempTree (w : World) (p : List String) (n : Option FsNode) (j : Nat) :
    (w.updNode p n).tempTree j = w.tempTree j := rfl

theorem updNode_tempNext (w : World) (p : List String) (n : Option FsNode) :
    (w.updNode p n).tempNext = w.tempNext := rfl

theorem addDirs_nodes (w : World) (d : List String) (q : List String) :
    (w.addDirs d).nodes q = w.nodes q := rfl

theorem addDirs_dirs (w : World) (d : List String) (q : List String) :
    (w.addDirs d).dirs q = (q.isPrefixOf d || w.dirs q) := rfl

theorem addDirs_tempFile (w : World) (d : List String) (j : Nat) :
    (w.addDirs d).tempFile j = w.tempFile j := rfl

theorem addDirs_tempTree (w : World) (d : List String) (j : Nat) :
    (w.addDirs d).tempTree j = w.tempTree j := rfl

theorem addDirs_tempNext (w : World) (d : List String) :
    (w.addDirs d).tempNext = w.tempNext := rfl

theorem updTempFile_nodes (w : World) (i : Nat) (v : Option String) (q : List String) :
    (w.updTempFile i v).nodes q = w.nodes q := rfl

theorem updTempFile_dirs (w : World) (i : Nat) (v : Option String) (q : List String) :
    (w.updTempFile i v).dirs q = w.dirs q := rfl

theorem updTempFile_tempFile (w : World) (i : Nat) (v : Option String) (j : Nat) :
    (w.updTempFile i v).tempFile j = if j = i then v else w.tempFile j := rfl

theorem updTempFile_tempTree (w : World) (i : Nat) (v : Option String) (j : Nat) :
    (w.updTempFile i v).tempTree j = w.tempTree j := rfl

theorem updTempFile_tempNext (w : World) (i : Nat) (v : Option String) :
    (w.updTempFile i v).tempNext = w.tempNext := rfl

theorem updTempTree_nodes (w : World) (i : Nat) (v : Option String) (q : List String) :
    (w.updTempTree i v).nodes q = w.nodes q := rfl

theorem updTempTree_dirs (w : World) (i : Nat) (v : Option String) (q : List String) :
    (w.updTempTree i v).dirs q = w.dirs q := rfl

theorem updTempTree_tempFile (w : World) (i : Nat) (v : Option String) (j : Nat) :
    (w.updTempTree i v).tempFile j = w.tempFile j := rfl

theorem updTempTree_tempTree (w : World) (i : Nat) (v : Option String) (j : Nat) :
    (w.updTempTree i v).tempTree j = if j = i then v else w.tempTree j := rfl

theorem updTempTree_tempNext (w : World) (i : Nat) (v : Option String) :
    (w.updTempTree i v).tempNext = w.tempNext := rfl

theorem bumpTemp_nodes (w : World) (q : List String) :
    w.bumpTemp.nodes q = w.nodes q := rfl

theorem bumpTemp_dirs (w : World) (q : List String) :
    w.bumpTemp.dirs q = w.dirs q := rfl

theorem bumpTemp_tempFile (w : World) (j : Nat) :
    w.bumpTemp.tempFile j = w.tempFile j := rfl

theorem bumpTemp_tempTree (w : World) (j : Nat) :
    w.bumpTemp.tempTree j = w.tempTree j := rfl

theorem bumpTemp_tempNext (w : World) :
    w.bumpTemp.tempNext = w.tempNext + 1 := rfl

theorem pathExists_eq_false_iff (w : World) (p : List String) :
    pathExists w p = false ↔ w.nodes p = none ∧ w.dirs p = false := by
  unfold pathExists
  cases h : w.nodes p <;> simp [h]

theorem isFile_iff (w : World) (p : List String) :
    isFile w p = true ↔ ∃ c, w.nodes p = some (.file c) := by
  unfold isFile
  cases h : w.nodes p with
  | none => simp
  | some n => cases n <;> simp

theorem isTreeAt_iff (w : World) (p : List String) :
    isTreeAt w p = true ↔ ∃ c, w.nodes p = some (.tree c) := by
  unfold isTreeAt
  cases h : w.nodes p with
  | none => simp
  | some n => cases n <;> simp

theorem lift_of_not_relative (t : Transaction) (rp : RustPath)
    (f : List String → World → Except TxErr ChangedItem × World) (w : World)
    (h : rp.is_relative = false) :
    Transaction.lift t rp f w = (.panicked, t, w) := by
  simp [Transaction.lift, h]

theorem lift_of_ok (t : Transaction) (rp : RustPath)
    (f : List String → World → Except TxErr ChangedItem × World) (w : World)
    (item : ChangedItem) (w1 : World)
    (hrel : rp.is_relative = true) (h : f rp.components w = (.ok item, w1)) :
    Transaction.lift t rp f w = (.ok (), t.change item, w1) := by
  simp [Transaction.lift, hrel, h]

theorem lift_of_error (t : Transaction) (rp : RustPath)
    (f : List String → World → Except TxErr ChangedItem × World) (w : World)
    (e : TxErr) (w1 : World)
    (hrel : rp.is_relative = true) (h : f rp.components w = (.error e, w1)) :
    Transaction.lift t rp f w = (.error e, t, w1) := by
  simp [Transaction.lift, hrel, h]

theorem change_changes (t : Transaction) (item : ChangedItem) :
    (t.change item).changes = t.changes ++ [item] := rfl

theorem change_committed (t : Transaction) (item : ChangedItem) :
    (t.change item).committed = t.committed := rfl

end RustupTx

namespace RustupTx

theorem rollBackAll_trace (l : List ChangedItem) (w : World) :
    (rollBackAll l w).2.2 = l := by
  induction l generalizing w with
  | nil => rfl
  | cons item rest ih =>
    unfold rollBackAll
    cases h : (ChangedItem.roll_back item w).1 <;> simp [h, ih]

/-- Claim C2: when an uncommitted Transaction is dropped, rollback visits
the records in strictly reverse insertion order: the trace of visited
records is the reverse of the log, so the record at visit position i is the
log record at position n - 1 - i. -/
theorem c2_rollback_reverse_order (t : Transaction) (w : World) (i : Nat)
    (hc : t.committed = false) (hi : i < t.changes.length) :
    Transaction.dropTrace t w = t.changes.reverse ∧
    (Transaction.dropTrace t w)[i]? = t.changes[t.changes.length - 1 - i]? := by
  have h1 : Transaction.dropTrace t w = t.changes.reverse := by
    simp [Transaction.dropTrace, hc, rollBackAll_trace]
  refine ⟨h1, ?_⟩
  rw [h1]
  exact List.getElem?_reverse hi

theorem c2_rollback_reverse_order_witness :
    (Transaction.mk [ChangedItem.addedFile ["a"], ChangedItem.addedDir ["b"]]
        false).committed = false ∧
    0 < (Transaction.mk [ChangedItem.addedFile ["a"], ChangedItem.addedDir ["b"]]
        false).changes.length ∧
    Transaction.dropTrace
        (Transaction.mk [ChangedItem.addedFile ["a"], ChangedItem.addedDir ["b"]]
          false) World.empty =
      (Transaction.mk [ChangedItem.addedFile ["a"], ChangedItem.addedDir ["b"]]
          false).changes.reverse ∧
    (Transaction.dropTrace
        (Transaction.mk [ChangedItem.addedFile ["a"], ChangedItem.addedDir ["b"]]
          false) World.empty)[0]? =
      (Transaction.mk [ChangedItem.addedFile ["a"], ChangedItem.addedDir ["b"]]
          false).changes[(Transaction.mk
            [ChangedItem.addedFile ["a"], ChangedItem.addedDir ["b"]]
            false).changes.length - 1 - 0]? := by
  refine ⟨rfl, by decide, ?_, ?_⟩
  · exact (c2_rollback_reverse_order _ World.empty 0 rfl (by decide)).1
  · exact (c2_rollback_reverse_order _ World.empty 0 rfl (by decide)).2

/-- Claim C3: rollback is best-effort per item: when the inversion of a
record fails, the failure is emitted as a NonFatalError notification, the
remaining (earlier) records are still all processed, and the result carries
no error (the loop returns only the world, the notifications and the
trace). -/
theorem c3_rollback_best_effort (item : ChangedItem) (l : List ChangedItem)
    (w w1 : World) (e : TxErr)
    (hfail : ChangedItem.roll_back item w = (.error e, w1)) :
    rollBackAll (item :: l) w =
      ((rollBackAll l w1).1,
       Notification.nonFatalError e :: (rollBackAll l w1).2.1,
       item :: (rollBackAll l w1).2.2) := by
  simp only [rollBackAll, hfail]

theorem c3_rollback_best_effort_witness :
    ChangedItem.roll_back (ChangedItem.addedFile ["x"]) World.empty =
      (.error (.ioError "remove_file"), World.empty) ∧
    rollBackAll [ChangedItem.addedFile ["x"], ChangedItem.addedDir ["y"]]
        World.empty =
      ((rollBackAll [ChangedItem.addedDir ["y"]] World.empty).1,
       Notification.nonFatalError (.ioError "remove_file") ::
         (rollBackAll [ChangedItem.addedDir ["y"]] World.empty).2.1,
       ChangedItem.addedFile ["x"] ::
         (rollBackAll [ChangedItem.addedDir ["y"]] World.empty).2.2) := by
  refine ⟨rfl, ?_⟩
  exact c3_rollback_best_effort (ChangedItem.addedFile ["x"])
    [ChangedItem.addedDir ["y"]] World.empty World.empty
    (.ioError "remove_file") rfl

/-- Claim C7: after commit, dropping the Transaction performs no
file-system mutation at all and emits nothing, whatever the log holds. -/
theorem c7_committed_drop_noop (t : Transaction) (w : World)
    (hc : t.committed = true) : Transaction.drop t w = (w, []) := by
  simp [Transaction.drop, hc]

theorem c7_committed_drop_noop_witness :
    (Transaction.mk [ChangedItem.addedFile ["a"], ChangedItem.removedFile ["b"] 0]
        true).committed = true ∧
    Transaction.drop
        (Transaction.mk [ChangedItem.addedFile ["a"], ChangedItem.removedFile ["b"] 0]
          true) World.empty = (World.empty, []) := by
  refine ⟨rfl, ?_⟩
  exact c7_committed_drop_noop _ World.empty rfl

end RustupTx

namespace RustupTx

/-- Claim C8: inverting a single ChangeRecord follows the per-variant
table: AddedFile deletes the file at the recorded path; AddedDir deletes
the directory tree; RemovedFile and ModifiedFile with a Some backup rename
the backup file back onto the recorded path; RemovedDir renames the backup
tree back onto the recorded path; ModifiedFile with a None backup deletes
the file now at the recorded path if one exists and otherwise does
nothing. -/
theorem c8_rollback_table :
    (∀ p w c, w.nodes p = some (.file c) →
      ChangedItem.roll_back (.addedFile p) w = (.ok (), w.updNode p none)) ∧
    (∀ p w c, w.nodes p = some (.tree c) →
      ChangedItem.roll_back (.addedDir p) w = (.ok (), w.updNode p none)) ∧
    (∀ p w i c, w.tempFile i = some c → isTreeAt w p = false →
      ChangedItem.roll_back (.removedFile p i) w =
        (.ok (), (w.updTempFile i none).updNode p (some (.file c)))) ∧
    (∀ p w i c, w.tempFile i = some c → isTreeAt w p = false →
      ChangedItem.roll_back (.modifiedFile p (some i)) w =
        (.ok (), (w.updTempFile i none).updNode p (some (.file c)))) ∧
    (∀ p w i c, w.tempTree i = some c → w.nodes p = none →
      ChangedItem.roll_back (.removedDir p i) w =
        (.ok (), (w.updTempTree i none).updNode p (some (.tree c)))) ∧
    (∀ p w, isFile w p = true →
      ChangedItem.roll_back (.modifiedFile p none) w = (.ok (), w.updNode p none)) ∧
    (∀ p w, isFile w p = false →
      ChangedItem.roll_back (.modifiedFile p none) w = (.ok (), w)) := by
  refine ⟨?_, ?_, ?_, ?_, ?_, ?_, ?_⟩
  · intro p w c h
    simp [ChangedItem.roll_back, utilsRemoveFile, h]
  · intro p w c h
    simp [ChangedItem.roll_back, utilsRemoveDir, h]
  · intro p w i c h1 h2
    simp [ChangedItem.roll_back, restoreFileFromBackup, h1, h2]
  · intro p w i c h1 h2
    simp [ChangedItem.roll_back, restoreFileFromBackup, h1, h2]
  · intro p w i c h1 h2
    simp [ChangedItem.roll_back, restoreTreeFromBackup, h1, h2]
  · intro p w h
    obtain ⟨c, hc⟩ := (isFile_iff w p).1 h
    simp [ChangedItem.roll_back, h, utilsRemoveFile, hc]
  · intro p w h
    simp [ChangedItem.roll_back, h]

theorem c8_rollback_table_witness :
    (World.empty.updNode ["a"] (some (FsNode.file "x"))).nodes ["a"] =
      some (FsNode.file "x") ∧
    ChangedItem.roll_back (.addedFile ["a"])
        (World.empty.updNode ["a"] (some (FsNode.file "x"))) =
      (.ok (), (World.empty.updNode ["a"] (some (FsNode.file "x"))).updNode ["a"] none) ∧
    (World.empty.updNode ["d"] (some (FsNode.tree "t"))).nodes ["d"] =
      some (FsNode.tree "t") ∧
    ChangedItem.roll_back (.addedDir ["d"])
        (World.empty.updNode ["d"] (some (FsNode.tree "t"))) =
      (.ok (), (World.empty.updNode ["d"] (some (FsNode.tree "t"))).updNode ["d"] none) ∧
    (World.empty.updTempFile 0 (some "c")).tempFile 0 = some "c" ∧
    isTreeAt (World.empty.updTempFile 0 (some "c")) ["p"] = false ∧
    ChangedItem.roll_back (.removedFile ["p"] 0)
        (World.empty.updTempFile 0 (some "c")) =
      (.ok (), ((World.empty.updTempFile 0 (some "c")).updTempFile 0 none).updNode
        ["p"] (some (FsNode.file "c"))) ∧
    ChangedItem.roll_back (.modifiedFile ["p"] (some 0))
        (World.empty.updTempFile 0 (some "c")) =
      (.ok (), ((World.empty.updTempFile 0 (some "c")).updTempFile 0 none).updNode
        ["p"] (some (FsNode.file "c"))) ∧
    (World.empty.updTempTree 1 (some "tt")).tempTree 1 = some "tt" ∧
    (World.empty.updTempTree 1 (some "tt")).nodes ["q"] = none ∧
    ChangedItem.roll_back (.removedDir ["q"] 1)
        (World.empty.updTempTree 1 (some "tt")) =
      (.ok (), ((World.empty.updTempTree 1 (some "tt")).updTempTree 1 none).updNode
        ["q"] (some (FsNode.tree "tt"))) ∧
    isFile (World.empty.updNode ["a"] (some (FsNode.file "x"))) ["a"] = true ∧
    ChangedItem.roll_back (.modifiedFile ["a"] none)
        (World.empty.updNode ["a"] (some (FsNode.file "x"))) =
      (.ok (), (World.empty.updNode ["a"] (some (FsNode.file "x"))).updNode ["a"] none) ∧
    isFile World.empty ["z"] = false ∧
    ChangedItem.roll_back (.modifiedFile ["z"] none) World.empty =
      (.ok (), World.empty) := by
  refine ⟨by decide, ?_, by decide, ?_, by decide, by decide, ?_, ?_, by decide,
    by decide, ?_, by decide, ?_, by decide, ?_⟩
  · exact c8_rollback_table.1 ["a"] (World.empty.updNode ["a"] (some (FsNode.file "x")))
      "x" (by decide)
  · exact c8_rollback_table.2.1 ["d"] (World.empty.updNode ["d"] (some (FsNode.tree "t")))
      "t" (by decide)
  · exact c8_rollback_table.2.2.1 ["p"] (World.empty.updTempFile 0 (some "c")) 0 "c"
      (by decide) (by decide)
  · exact c8_rollback_table.2.2.2.1 ["p"] (World.empty.updTempFile 0 (some "c")) 0 "c"
      (by decide) (by decide)
  · exact c8_rollback_table.2.2.2.2.1 ["q"] (World.empty.updTempTree 1 (some "tt")) 1 "tt"
      (by decide) (by decide)
  · exact c8_rollback_table.2.2.2.2.2.1 ["a"]
      (World.empty.updNode ["a"] (some (FsNode.file "x"))) (by decide)
  · exact c8_rollback_table.2.2.2.2.2.2 ["z"] World.empty (by decide)

end RustupTx

namespace RustupTx

theorem dest_conflict (component : String) (p : List String) (w : World)
    (h : pathExists w p = true) :
    ChangedItem.dest_abs_path component p w =
      (.error (.componentConflict component p), w) := by
  simp [ChangedItem.dest_abs_path, h]

/-- Claim C6: add_file, copy_file, copy_dir, move_file and move_dir at a
relative path where something already exists fail with ComponentConflict
and leave the log, the Transaction and the world exactly unchanged. -/
theorem c6_conflict_unchanged (component : String) (rp : RustPath)
    (src : Option String) (t : Transaction) (w : World)
    (hrel : rp.is_relative = true) (hex : pathExists w rp.components = true) :
    t.add_file component rp w =
      (.error (.componentConflict component rp.components), t, w) ∧
    t.copy_file component rp src w =
      (.error (.componentConflict component rp.components), t, w) ∧
    t.copy_dir component rp src w =
      (.error (.componentConflict component rp.components), t, w) ∧
    t.move_file component rp src w =
      (.error (.componentConflict component rp.components), t, w) ∧
    t.move_dir component rp src w =
      (.error (.componentConflict component rp.components), t, w) := by
  have hd := dest_conflict component rp.components w hex
  refine ⟨?_, ?_, ?_, ?_, ?_⟩
  · exact lift_of_error t rp _ w _ w hrel (by simp [ChangedItem.add_file, hd])
  · exact lift_of_error t rp _ w _ w hrel (by simp [ChangedItem.copy_file, hd])
  · exact lift_of_error t rp _ w _ w hrel (by simp [ChangedItem.copy_dir, hd])
  · exact lift_of_error t rp _ w _ w hrel (by simp [ChangedItem.move_file, hd])
  · exact lift_of_error t rp _ w _ w hrel (by simp [ChangedItem.move_dir, hd])

theorem c6_conflict_unchanged_witness :
    RustPath.is_relative ⟨false, ["a"]⟩ = true ∧
    pathExists (World.empty.updNode ["a"] (some (FsNode.file "f"))) ["a"] = true ∧
    Transaction.add_file Transaction.new "c" ⟨false, ["a"]⟩
        (World.empty.updNode ["a"] (some (FsNode.file "f"))) =
      (.error (.componentConflict "c" ["a"]), Transaction.new,
       World.empty.updNode ["a"] (some (FsNode.file "f"))) ∧
    Transaction.copy_file Transaction.new "c" ⟨false, ["a"]⟩ (some "s")
        (World.empty.updNode ["a"] (some (FsNode.file "f"))) =
      (.error (.componentConflict "c" ["a"]), Transaction.new,
       World.empty.updNode ["a"] (some (FsNode.file "f"))) ∧
    Transaction.copy_dir Transaction.new "c" ⟨false, ["a"]⟩ (some "s")
        (World.empty.updNode ["a"] (some (FsNode.file "f"))) =
      (.error (.componentConflict "c" ["a"]), Transaction.new,
       World.empty.updNode ["a"] (some (FsNode.file "f"))) ∧
    Transaction.move_file Transaction.new "c" ⟨false, ["a"]⟩ (some "s")
        (World.empty.updNode ["a"] (some (FsNode.file "f"))) =
      (.error (.componentConflict "c" ["a"]), Transaction.new,
       World.empty.updNode ["a"] (some (FsNode.file "f"))) ∧
    Transaction.move_dir Transaction.new "c" ⟨false, ["a"]⟩ (some "s")
        (World.empty.updNode ["a"] (some (FsNode.file "f"))) =
      (.error (.componentConflict "c" ["a"]), Transaction.new,
       World.empty.updNode ["a"] (some (FsNode.file "f"))) := by
  have h := c6_conflict_unchanged "c" ⟨false, ["a"]⟩ (some "s") Transaction.new
    (World.empty.updNode ["a"] (some (FsNode.file "f"))) (by decide) (by decide)
  exact ⟨by decide, by decide, h.1, h.2.1, h.2.2.1, h.2.2.2.1, h.2.2.2.2⟩

theorem remove_file_missing (component : String) (p : List String) (w : World)
    (h : pathExists w p = false) :
    ChangedItem.remove_file component p w =
      (.error (.componentMissingFile component p),
       (w.updTempFile w.tempNext (some "")).bumpTemp) := by
  have h2 : pathExists ((w.updTempFile w.tempNext (some "")).bumpTemp) p = false := h
  simp [ChangedItem.remove_file, newTempFile, h2]

theorem remove_dir_missing (component : String) (p : List String) (w : World)
    (h : pathExists w p = false) :
    ChangedItem.remove_dir component p w =
      (.error (.componentMissingDir component p), w.bumpTemp) := by
  have h2 : pathExists w.bumpTemp p = false := h
  simp [ChangedItem.remove_dir, newTempDir, h2]

theorem c4_counterexample :
    (Transaction.remove_file Transaction.new "comp" ⟨false, ["data"]⟩
        World.empty).1 = .error (.componentMissingFile "comp" ["data"]) ∧
    (Transaction.remove_file Transaction.new "comp" ⟨false, ["data"]⟩
        World.empty).2.2.tempNext = World.empty.tempNext + 1 ∧
    (Transaction.remove_file Transaction.new "comp" ⟨false, ["data"]⟩
        World.empty).2.2.tempFile World.empty.tempNext = some "" ∧
    (Transaction.remove_dir Transaction.new "comp" ⟨false, ["data"]⟩
        World.empty).1 = .error (.componentMissingDir "comp" ["data"]) ∧
    (Transaction.remove_dir Transaction.new "comp" ⟨false, ["data"]⟩
        World.empty).2.2.tempNext = World.empty.tempNext + 1 := by
  decide

/-- Claim C4 (amended): remove_file and remove_dir at a missing relative
path fail with ComponentMissingFile and ComponentMissingDir, leaving the
log and the install-prefix file system unchanged, but a backup IS allocated
from the temp-storage collaborator before the existence check runs (the
fresh counter advances; for remove_file the empty backup file exists). -/
theorem c4_remove_missing (component : String) (rp : RustPath)
    (t : Transaction) (w : World) (x : List String)
    (hrel : rp.is_relative = true) (hne : pathExists w rp.components = false) :
    t.remove_file component rp w =
      (.error (.componentMissingFile component rp.components), t,
       (w.updTempFile w.tempNext (some "")).bumpTemp) ∧
    t.remove_dir component rp w =
      (.error (.componentMissingDir component rp.components), t, w.bumpTemp) ∧
    (t.remove_file component rp w).2.2.nodes x = w.nodes x ∧
    (t.remove_file component rp w).2.2.dirs x = w.dirs x ∧
    (t.remove_file component rp w).2.2.tempNext = w.tempNext + 1 ∧
    (t.remove_dir component rp w).2.2.nodes x = w.nodes x ∧
    (t.remove_dir component rp w).2.2.dirs x = w.dirs x ∧
    (t.remove_dir component rp w).2.2.tempNext = w.tempNext + 1 := by
  have h1 : t.remove_file component rp w =
      (.error (.componentMissingFile component rp.components), t,
       (w.updTempFile w.tempNext (some "")).bumpTemp) :=
    lift_of_error t rp _ w _ _ hrel (remove_file_missing component rp.components w hne)
  have h2 : t.remove_dir component rp w =
      (.error (.componentMissingDir component rp.components), t, w.bumpTemp) :=
    lift_of_error t rp _ w _ _ hrel (remove_dir_missing component rp.components w hne)
  exact ⟨h1, h2, by rw [h1]; rfl, by rw [h1]; rfl, by rw [h1]; rfl,
    by rw [h2]; rfl, by rw [h2]; rfl, by rw [h2]; rfl⟩

theorem c4_remove_missing_witness :
    RustPath.is_relative ⟨false, ["data"]⟩ = true ∧
    pathExists World.empty ["data"] = false ∧
    Transaction.remove_file Transaction.new "comp" ⟨false, ["data"]⟩ World.empty =
      (.error (.componentMissingFile "comp" ["data"]), Transaction.new,
       (World.empty.updTempFile World.empty.tempNext (some "")).bumpTemp) ∧
    Transaction.remove_dir Transaction.new "comp" ⟨false, ["data"]⟩ World.empty =
      (.error (.componentMissingDir "comp" ["data"]), Transaction.new,
       World.empty.bumpTemp) ∧
    (Transaction.remove_file Transaction.new "comp" ⟨false, ["data"]⟩
        World.empty).2.2.nodes ["data"] = World.empty.nodes ["data"] ∧
    (Transaction.remove_file Transaction.new "comp" ⟨false, ["data"]⟩
        World.empty).2.2.tempNext = World.empty.tempNext + 1 := by
  have h := c4_remove_missing "comp" ⟨false, ["data"]⟩ Transaction.new World.empty
    ["data"] (by decide) (by decide)
  exact ⟨by decide, by decide, h.1, h.2.1, h.2.2.1, h.2.2.2.2.1⟩

theorem c9_counterexample :
    RustPath.is_relative ⟨false, []⟩ = true ∧
    (Transaction.add_file Transaction.new "c" ⟨false, []⟩ World.empty).1 =
      .error (.componentConflict "c" []) := by
  decide

/-- Claim C9 (amended): every public Transaction operation rejects an
absolute path at the API boundary by an assertion panic, before any I/O
and with the Transaction and the world untouched; an empty path, however,
is NOT rejected: it counts as relative and the call proceeds to the
file-system checks. -/
theorem c9_absolute_rejected (component : String) (rp : RustPath)
    (src : Option String) (content : String) (wstrOk : Bool)
    (t : Transaction) (w : World) (habs : rp.is_relative = false) :
    t.add_file component rp w = (.panicked, t, w) ∧
    t.copy_file component rp src w = (.panicked, t, w) ∧
    t.copy_dir component rp src w = (.panicked, t, w) ∧
    t.move_file component rp src w = (.panicked, t, w) ∧
    t.move_dir component rp src w = (.panicked, t, w) ∧
    t.remove_file component rp w = (.panicked, t, w) ∧
    t.remove_dir component rp w = (.panicked, t, w) ∧
    t.modify_file rp w = (.panicked, t, w) ∧
    t.write_file component rp content wstrOk w = (.panicked, t, w) ∧
    RustPath.is_relative ⟨false, []⟩ = true := by
  have hp : ∀ f, Transaction.lift t rp f w = (.panicked, t, w) :=
    fun f => lift_of_not_relative t rp f w habs
  exact ⟨hp _, hp _, hp _, hp _, hp _, hp _, hp _, hp _,
    by simp [Transaction.write_file, habs], by decide⟩

theorem c9_absolute_rejected_witness :
    RustPath.is_relative ⟨true, ["a"]⟩ = false ∧
    Transaction.add_file Transaction.new "c" ⟨true, ["a"]⟩ World.empty =
      (.panicked, Transaction.new, World.empty) ∧
    Transaction.remove_file Transaction.new "c" ⟨true, ["a"]⟩ World.empty =
      (.panicked, Transaction.new, World.empty) ∧
    Transaction.modify_file Transaction.new ⟨true, ["a"]⟩ World.empty =
      (.panicked, Transaction.new, World.empty) ∧
    Transaction.write_file Transaction.new "c" ⟨true, ["a"]⟩ "v" true World.empty =
      (.panicked, Transaction.new, World.empty) ∧
    RustPath.is_relative ⟨false, []⟩ = true := by
  have h := c9_absolute_rejected "c" ⟨true, ["a"]⟩ (some "s") "v" true
    Transaction.new World.empty (by decide)
  exact ⟨by decide, h.1, h.2.2.2.2.2.1, h.2.2.2.2.2.2.2.1, h.2.2.2.2.2.2.2.2.1,
    by decide⟩

/-- Claim C10: write_file pushes its AddedFile record right after the
empty file is created and before the content is written: when the content
write fails, write_file returns the error, yet the log holds the AddedFile
record, the file exists with the partial (empty) content, and rolling the
record back deletes the partially-written file. -/
theorem c10_write_file_record_before_write (component : String) (rp : RustPath)
    (content : String) (t : Transaction) (w : World)
    (hrel : rp.is_relative = true) (hne : pathExists w rp.components = false) :
    (t.write_file component rp content false w).1 =
      .error (.ioError "write_str") ∧
    (t.write_file component rp content false w).2.1.changes =
      t.changes ++ [ChangedItem.addedFile rp.components] ∧
    (t.write_file component rp content false w).2.2.nodes rp.components =
      some (FsNode.file "") ∧
    (ChangedItem.roll_back (.addedFile rp.components)
        (t.write_file component rp content false w).2.2).1 = .ok () ∧
    (ChangedItem.roll_back (.addedFile rp.components)
        (t.write_file component rp content false w).2.2).2.nodes rp.components =
      none := by
  rcases hp : parentOf rp.components with _ | d <;>
    simp [Transaction.write_file, hrel, ChangedItem.add_file,
      ChangedItem.dest_abs_path, hne, hp, utilsWriteStr, ChangedItem.roll_back,
      utilsRemoveFile, Transaction.change, World.updNode, World.addDirs]

theorem c10_write_file_record_before_write_witness :
    RustPath.is_relative ⟨false, ["a"]⟩ = true ∧
    pathExists World.empty ["a"] = false ∧
    (Transaction.write_file Transaction.new "c" ⟨false, ["a"]⟩ "hello" false
        World.empty).1 = .error (.ioError "write_str") ∧
    (Transaction.write_file Transaction.new "c" ⟨false, ["a"]⟩ "hello" false
        World.empty).2.1.changes =
      Transaction.new.changes ++ [ChangedItem.addedFile ["a"]] ∧
    (ChangedItem.roll_back (.addedFile ["a"])
        (Transaction.write_file Transaction.new "c" ⟨false, ["a"]⟩ "hello" false
          World.empty).2.2).2.nodes ["a"] = none := by
  have h := c10_write_file_record_before_write "c" ⟨false, ["a"]⟩ "hello"
    Transaction.new World.empty (by decide) (by decide)
  exact ⟨by decide, by decide, h.1, h.2.1, h.2.2.2.2⟩

end RustupTx

namespace RustupTx

theorem add_file_ok_shape (component : String) (p : List String) (w : World)
    (res : ChangedItem) (w1 : World)
    (h : ChangedItem.add_file component p w = (.ok res, w1)) :
    res = .addedFile p := by
  unfold ChangedItem.add_file at h
  rcases hd : ChangedItem.dest_abs_path component p w with ⟨dres, w2⟩
  rw [hd] at h
  cases dres <;> simp_all

theorem lift_log_discipline (t : Transaction) (rp : RustPath)
    (f : List String → World → Except TxErr ChangedItem × World) (w : World) :
    LogDiscipline t (t.lift rp f w) := by
  unfold LogDiscipline Transaction.lift
  cases hrel : rp.is_relative with
  | false => simp [Outcome.isErr]
  | true =>
    rcases hf : f rp.components w with ⟨res, w1⟩
    cases res with
    | ok item =>
      simp [hf, Outcome.isErr, Transaction.change, List.take_left]
    | error e => simp [hf, Outcome.isErr]

theorem c5_counterexample :
    (Transaction.write_file Transaction.new "c" ⟨false, ["a"]⟩ "v" false
        World.empty).1 = .error (.ioError "write_str") ∧
    (Transaction.write_file Transaction.new "c" ⟨false, ["a"]⟩ "v" false
        World.empty).2.1.changes = [ChangedItem.addedFile ["a"]] ∧
    Transaction.new.changes = ([] : List ChangedItem) := by
  decide

/-- Claim C5 (amended): every mutating operation except write_file appends
exactly one ChangeRecord on success (the old log is a strict prefix and the
length grows by one) and appends nothing on an error or a boundary panic;
write_file appends exactly one record on success and nothing when the
conflict check or the file creation fails, but when the file is created and
the subsequent content write fails it returns an error with the AddedFile
record already appended. -/
theorem c5_log_discipline_ops (component : String) (rp : RustPath)
    (src : Option String) (content : String) (t : Transaction) (w : World) :
    LogDiscipline t (t.add_file component rp w) ∧
    LogDiscipline t (t.copy_file component rp src w) ∧
    LogDiscipline t (t.copy_dir component rp src w) ∧
    LogDiscipline t (t.move_file component rp src w) ∧
    LogDiscipline t (t.move_dir component rp src w) ∧
    LogDiscipline t (t.remove_file component rp w) ∧
    LogDiscipline t (t.remove_dir component rp w) ∧
    LogDiscipline t (t.modify_file rp w) ∧
    ((t.write_file component rp content true w).1 = .ok () →
      (t.write_file component rp content true w).2.1.changes.length =
        t.changes.length + 1 ∧
      (t.write_file component rp content true w).2.1.changes.take
        t.changes.length = t.changes) ∧
    ((t.write_file component rp content true w).1.isErr = true →
      (t.write_file component rp content true w).2.1 = t) ∧
    ((t.write_file component rp content true w).1 = .panicked →
      (t.write_file component rp content true w).2.1 = t) ∧
    ((t.write_file component rp content false w).1.isErr = true →
      (t.write_file component rp content false w).2.1 = t ∨
      (t.write_file component rp content false w).2.1.changes =
        t.changes ++ [ChangedItem.addedFile rp.components]) := by
  refine ⟨lift_log_discipline t rp _ w, lift_log_discipline t rp _ w,
    lift_log_discipline t rp _ w, lift_log_discipline t rp _ w,
    lift_log_discipline t rp _ w, lift_log_discipline t rp _ w,
    lift_log_discipline t rp _ w, lift_log_discipline t rp _ w, ?_, ?_, ?_, ?_⟩
  · cases hrel : rp.is_relative with
    | false => simp [Transaction.write_file, hrel]
    | true =>
      rcases ha : ChangedItem.add_file component rp.components w with ⟨res, w1⟩
      cases res with
      | error e => simp [Transaction.write_file, hrel, ha]
      | ok item =>
        simp [Transaction.write_file, hrel, ha, utilsWriteStr,
          Transaction.change, List.take_left]
  · cases hrel : rp.is_relative with
    | false => simp [Transaction.write_file, hrel, Outcome.isErr]
    | true =>
      rcases ha : ChangedItem.add_file component rp.components w with ⟨res, w1⟩
      cases res with
      | error e => simp [Transaction.write_file, hrel, ha, Outcome.isErr]
      | ok item =>
        simp [Transaction.write_file, hrel, ha, utilsWriteStr, Outcome.isErr]
  · cases hrel : rp.is_relative with
    | false => simp [Transaction.write_file, hrel]
    | true =>
      rcases ha : ChangedItem.add_file component rp.components w with ⟨res, w1⟩
      cases res with
      | error e => simp [Transaction.write_file, hrel, ha]
      | ok item => simp [Transaction.write_file, hrel, ha, utilsWriteStr]
  · cases hrel : rp.is_relative with
    | false => simp [Transaction.write_file, hrel, Outcome.isErr]
    | true =>
      rcases ha : ChangedItem.add_file component rp.components w with ⟨res, w1⟩
      cases res with
      | error e => simp [Transaction.write_file, hrel, ha, Outcome.isErr]
      | ok item =>
        have hi := add_file_ok_shape component rp.components w item w1 ha
        subst hi
        simp [Transaction.write_file, hrel, ha, utilsWriteStr, Outcome.isErr,
          Transaction.change]

theorem c5_log_discipline_ops_witness :
    (Transaction.add_file Transaction.new "c" ⟨false, ["a"]⟩ World.empty).1 =
      .ok () ∧
    (Transaction.add_file Transaction.new "c" ⟨false, ["a"]⟩
        World.empty).2.1.changes.length = Transaction.new.changes.length + 1 ∧
    (Transaction.add_file Transaction.new "c" ⟨false, ["a"]⟩
        World.empty).2.1.changes.take Transaction.new.changes.length =
      Transaction.new.changes ∧
    (Transaction.remove_file Transaction.new "c" ⟨false, ["b"]⟩
        World.empty).1.isErr = true ∧
    (Transaction.remove_file Transaction.new "c" ⟨false, ["b"]⟩
        World.empty).2.1 = Transaction.new ∧
    (Transaction.write_file Transaction.new "c" ⟨false, ["a"]⟩ "v" false
        World.empty).1.isErr = true ∧
    ((Transaction.write_file Transaction.new "c" ⟨false, ["a"]⟩ "v" false
        World.empty).2.1 = Transaction.new ∨
      (Transaction.write_file Transaction.new "c" ⟨false, ["a"]⟩ "v" false
        World.empty).2.1.changes =
        Transaction.new.changes ++ [ChangedItem.addedFile ["a"]]) := by
  have h := c5_log_discipline_ops "c" ⟨false, ["a"]⟩ (some "s") "v"
    Transaction.new World.empty
  have h6 := c5_log_discipline_ops "c" ⟨false, ["b"]⟩ (some "s") "v"
    Transaction.new World.empty
  exact ⟨by decide, (h.1.1 (by decide)).1, (h.1.1 (by decide)).2,
    by decide, h6.2.2.2.2.2.1.2.1 (by decide), by decide,
    h.2.2.2.2.2.2.2.2.2.2.2 (by decide)⟩

end RustupTx

namespace RustupTx

theorem isPrefixOf_dropLast_self (p : List String) (h : p ≠ []) :
    p.isPrefixOf p.dropLast = false := by
  by_contra hc
  have hb : p.isPrefixOf p.dropLast = true := by
    cases hh : p.isPrefixOf p.dropLast
    · exact absurd hh hc
    · rfl
  have hpre : p <+: p.dropLast := List.isPrefixOf_iff_prefix.1 hb
  have hlen := hpre.length_le
  have hlen2 : p.dropLast.length = p.length - 1 := by
    simp [List.length_dropLast]
  have hpos : 0 < p.length := List.length_pos.2 h
  omega

theorem isFile_of_nodes_eq (v u : World) (p : List String)
    (h : v.nodes p = u.nodes p) : isFile v p = isFile u p := by
  unfold isFile
  rw [h]

theorem dest_ok_inv (component : String) (p : List String) (w : World)
    (u : Unit) (wd : World)
    (h : ChangedItem.dest_abs_path component p w = (.ok u, wd)) :
    pathExists w p = false ∧ (∀ x, wd.nodes x = w.nodes x) ∧
    (∀ id, wd.tempFile id = w.tempFile id) ∧
    (∀ id, wd.tempTree id = w.tempTree id) ∧
    wd.tempNext = w.tempNext := by
  unfold ChangedItem.dest_abs_path at h
  by_cases hex : pathExists w p
  · simp [hex] at h
  · rcases hpar : parentOf p with _ | d <;> simp [hex, hpar] at h <;>
      subst h <;> simp [hex, World.addDirs]

theorem add_file_ok_inv (component : String) (p : List String) (w : World)
    (item : ChangedItem) (wa : World)
    (h : ChangedItem.add_file component p w = (.ok item, wa)) :
    pathExists w p = false ∧ item = .addedFile p ∧
    wa.nodes p = some (FsNode.file "") ∧
    (∀ x, x ≠ p → wa.nodes x = w.nodes x) ∧
    (∀ id, wa.tempFile id = w.tempFile id) ∧
    (∀ id, wa.tempTree id = w.tempTree id) ∧
    wa.tempNext = w.tempNext := by
  unfold ChangedItem.add_file at h
  rcases hd : ChangedItem.dest_abs_path component p w with ⟨dres, wd⟩
  rw [hd] at h
  cases dres with
  | error e => simp at h
  | ok u =>
    simp only [Prod.mk.injEq, Except.ok.injEq] at h
    obtain ⟨hi, hw⟩ := h
    obtain ⟨hex, hn, hf, ht, hnx⟩ := dest_ok_inv component p w u wd hd
    subst hi
    refine ⟨hex, rfl, ?_, ?_, ?_, ?_, ?_⟩
    · rw [← hw]; simp [updNode_nodes]
    · intro x hx
      rw [← hw]
      rw [updNode_nodes]
      simp [hx, hn x]
    · intro id
      rw [← hw, updNode_tempFile, hf id]
    · intro id
      rw [← hw, updNode_tempTree, ht id]
    · rw [← hw, updNode_tempNext, hnx]

end RustupTx

namespace RustupTx

theorem copy_file_ok_inv (component : String) (p : List String)
    (src : Option String) (w : World) (item : ChangedItem) (wa : World)
    (h : ChangedItem.copy_file component p src w = (.ok item, wa)) :
    pathExists w p = false ∧ item = .addedFile p ∧
    (∃ c, src = some c ∧ wa.nodes p = some (FsNode.file c)) ∧
    (∀ x, x ≠ p → wa.nodes x = w.nodes x) ∧
    (∀ id, wa.tempFile id = w.tempFile id) ∧
    (∀ id, wa.tempTree id = w.tempTree id) ∧
    wa.tempNext = w.tempNext := by
  unfold ChangedItem.copy_file at h
  rcases hd : ChangedItem.dest_abs_path component p w with ⟨dres, wd⟩
  rw [hd] at h
  cases dres with
  | error e => simp at h
  | ok u =>
    obtain ⟨hex, hn, hf, ht, hnx⟩ := dest_ok_inv component p w u wd hd
    cases src with
    | none => simp [utilsCopyFileIn] at h
    | some c =>
      simp only [utilsCopyFileIn, Prod.mk.injEq, Except.ok.injEq] at h
      obtain ⟨hi, hw⟩ := h
      subst hi
      refine ⟨hex, rfl, ⟨c, rfl, ?_⟩, ?_, ?_, ?_, ?_⟩
      · rw [← hw]; simp [updNode_nodes]
      · intro x hx; rw [← hw, updNode_nodes]; simp [hx, hn x]
      · intro id; rw [← hw, updNode_tempFile, hf id]
      · intro id; rw [← hw, updNode_tempTree, ht id]
      · rw [← hw, updNode_tempNext, hnx]

theorem copy_dir_ok_inv (component : String) (p : List String)
    (src : Option String) (w : World) (item : ChangedItem) (wa : World)
    (h : ChangedItem.copy_dir component p src w = (.ok item, wa)) :
    pathExists w p = false ∧ item = .addedDir p ∧
    (∃ c, src = some c ∧ wa.nodes p = some (FsNode.tree c)) ∧
    (∀ x, x ≠ p → wa.nodes x = w.nodes x) ∧
    (∀ id, wa.tempFile id = w.tempFile id) ∧
    (∀ id, wa.tempTree id = w.tempTree id) ∧
    wa.tempNext = w.tempNext := by
  unfold ChangedItem.copy_dir at h
  rcases hd : ChangedItem.dest_abs_path component p w with ⟨dres, wd⟩
  rw [hd] at h
  cases dres with
  | error e => simp at h
  | ok u =>
    obtain ⟨hex, hn, hf, ht, hnx⟩ := dest_ok_inv component p w u wd hd
    cases src with
    | none => simp [utilsCopyDirIn] at h
    | some c =>
      simp only [utilsCopyDirIn, Prod.mk.injEq, Except.ok.injEq] at h
      obtain ⟨hi, hw⟩ := h
      subst hi
      refine ⟨hex, rfl, ⟨c, rfl, ?_⟩, ?_, ?_, ?_, ?_⟩
      · rw [← hw]; simp [updNode_nodes]
      · intro x hx; rw [← hw, updNode_nodes]; simp [hx, hn x]
      · intro id; rw [← hw, updNode_tempFile, hf id]
      · intro id; rw [← hw, updNode_tempTree, ht id]
      · rw [← hw, updNode_tempNext, hnx]

theorem move_file_ok_inv (component : String) (p : List String)
    (src : Option String) (w : World) (item : ChangedItem) (wa : World)
    (h : ChangedItem.move_file component p src w = (.ok item, wa)) :
    pathExists w p = false ∧ item = .addedFile p ∧
    (∃ c, src = some c ∧ wa.nodes p = some (FsNode.file c)) ∧
    (∀ x, x ≠ p → wa.nodes x = w.nodes x) ∧
    (∀ id, wa.tempFile id = w.tempFile id) ∧
    (∀ id, wa.tempTree id = w.tempTree id) ∧
    wa.tempNext = w.tempNext := by
  unfold ChangedItem.move_file at h
  rcases hd : ChangedItem.dest_abs_path component p w with ⟨dres, wd⟩
  rw [hd] at h
  cases dres with
  | error e => simp at h
  | ok u =>
    obtain ⟨hex, hn, hf, ht, hnx⟩ := dest_ok_inv component p w u wd hd
    cases src with
    | none => simp [utilsMoveFileIn] at h
    | some c =>
      simp only [utilsMoveFileIn, Prod.mk.injEq, Except.ok.injEq] at h
      obtain ⟨hi, hw⟩ := h
      subst hi
      refine ⟨hex, rfl, ⟨c, rfl, ?_⟩, ?_, ?_, ?_, ?_⟩
      · rw [← hw]; simp [updNode_nodes]
      · intro x hx; rw [← hw, updNode_nodes]; simp [hx, hn x]
      · intro id; rw [← hw, updNode_tempFile, hf id]
      · intro id; rw [← hw, updNode_tempTree, ht id]
      · rw [← hw, updNode_tempNext, hnx]

theorem move_dir_ok_inv (component : String) (p : List String)
    (src : Option String) (w : World) (item : ChangedItem) (wa : World)
    (h : ChangedItem.move_dir component p src w = (.ok item, wa)) :
    pathExists w p = false ∧ item = .addedDir p ∧
    (∃ c, src = some c ∧ wa.nodes p = some (FsNode.tree c)) ∧
    (∀ x, x ≠ p → wa.nodes x = w.nodes x) ∧
    (∀ id, wa.tempFile id = w.tempFile id) ∧
    (∀ id, wa.tempTree id = w.tempTree id) ∧
    wa.tempNext = w.tempNext := by
  unfold ChangedItem.move_dir at h
  rcases hd : ChangedItem.dest_abs_path component p w with ⟨dres, wd⟩
  rw [hd] at h
  cases dres with
  | error e => simp at h
  | ok u =>
    obtain ⟨hex, hn, hf, ht, hnx⟩ := dest_ok_inv component p w u wd hd
    cases src with
    | none => simp [utilsMoveDirIn] at h
    | some c =>
      simp only [utilsMoveDirIn, Prod.mk.injEq, Except.ok.injEq] at h
      obtain ⟨hi, hw⟩ := h
      subst hi
      refine ⟨hex, rfl, ⟨c, rfl, ?_⟩, ?_, ?_, ?_, ?_⟩
      · rw [← hw]; simp [updNode_nodes]
      · intro x hx; rw [← hw, updNode_nodes]; simp [hx, hn x]
      · intro id; rw [← hw, updNode_tempFile, hf id]
      · intro id; rw [← hw, updNode_tempTree, ht id]
      · rw [← hw, updNode_tempNext, hnx]

end RustupTx

namespace RustupTx

theorem remove_file_ok_inv (component : String) (p : List String) (w : World)
    (item : ChangedItem) (wa : World)
    (h : ChangedItem.remove_file component p w = (.ok item, wa)) :
    ∃ c, w.nodes p = some (FsNode.file c) ∧
      item = .removedFile p w.tempNext ∧
      wa.nodes p = none ∧
      (∀ x, x ≠ p → wa.nodes x = w.nodes x) ∧
      wa.tempFile w.tempNext = some c ∧
      (∀ id, id ≠ w.tempNext → wa.tempFile id = w.tempFile id) ∧
      (∀ id, wa.tempTree id = w.tempTree id) ∧
      wa.tempNext = w.tempNext + 1 := by
  unfold ChangedItem.remove_file at h
  simp only [newTempFile] at h
  cases hex : pathExists ((w.updTempFile w.tempNext (some "")).bumpTemp) p with
  | false => rw [hex] at h; simp at h
  | true =>
    rw [hex] at h
    simp only [Bool.not_true, Bool.false_eq_true, if_false, moveFileToBackup] at h
    have hnn : ((w.updTempFile w.tempNext (some "")).bumpTemp).nodes p =
        w.nodes p := rfl
    rw [hnn] at h
    cases hn : w.nodes p with
    | none => rw [hn] at h; simp at h
    | some n =>
      rw [hn] at h
      cases n with
      | tree c => simp at h
      | file c =>
        simp only [Prod.mk.injEq, Except.ok.injEq] at h
        obtain ⟨hi, hw⟩ := h
        subst hi
        refine ⟨c, rfl, rfl, ?_, ?_, ?_, ?_, ?_, ?_⟩
        · rw [← hw]
          simp [updTempFile_nodes, updNode_nodes]
        · intro x hx
          rw [← hw]
          simp [updTempFile_nodes, updNode_nodes, bumpTemp_nodes, hx]
        · rw [← hw]
          simp [updTempFile_tempFile]
        · intro id hid
          rw [← hw]
          simp [updTempFile_tempFile, updNode_tempFile, bumpTemp_tempFile, hid]
        · intro id
          rw [← hw]
          simp [updTempFile_tempTree, updNode_tempTree, bumpTemp_tempTree]
        · rw [← hw]
          simp [updTempFile_tempNext, updNode_tempNext, bumpTemp_tempNext]

theorem remove_dir_ok_inv (component : String) (p : List String) (w : World)
    (item : ChangedItem) (wa : World)
    (h : ChangedItem.remove_dir component p w = (.ok item, wa)) :
    ∃ c, w.nodes p = some (FsNode.tree c) ∧
      item = .removedDir p w.tempNext ∧
      wa.nodes p = none ∧
      (∀ x, x ≠ p → wa.nodes x = w.nodes x) ∧
      wa.tempTree w.tempNext = some c ∧
      (∀ id, id ≠ w.tempNext → wa.tempTree id = w.tempTree id) ∧
      (∀ id, wa.tempFile id = w.tempFile id) ∧
      wa.tempNext = w.tempNext + 1 := by
  unfold ChangedItem.remove_dir at h
  simp only [newTempDir] at h
  cases hex : pathExists w.bumpTemp p with
  | false => rw [hex] at h; simp at h
  | true =>
    rw [hex] at h
    simp only [Bool.not_true, Bool.false_eq_true, if_false, moveTreeToBackup] at h
    have hnn : w.bumpTemp.nodes p = w.nodes p := rfl
    rw [hnn] at h
    cases hn : w.nodes p with
    | none => rw [hn] at h; simp at h
    | some n =>
      rw [hn] at h
      cases n with
      | file c => simp at h
      | tree c =>
        simp only [Prod.mk.injEq, Except.ok.injEq] at h
        obtain ⟨hi, hw⟩ := h
        subst hi
        refine ⟨c, rfl, rfl, ?_, ?_, ?_, ?_, ?_, ?_⟩
        · rw [← hw]
          simp [updTempTree_nodes, updNode_nodes]
        · intro x hx
          rw [← hw]
          simp [updTempTree_nodes, updNode_nodes, bumpTemp_nodes, hx]
        · rw [← hw]
          simp [updTempTree_tempTree]
        · intro id hid
          rw [← hw]
          simp [updTempTree_tempTree, updNode_tempTree, bumpTemp_tempTree, hid]
        · intro id
          rw [← hw]
          simp [updTempTree_tempFile, updNode_tempFile, bumpTemp_tempFile]
        · rw [← hw]
          simp [updTempTree_tempNext, updNode_tempNext, bumpTemp_tempNext]

theorem modify_file_ok_inv (p : List String) (w : World) (item : ChangedItem)
    (wa : World) (h : ChangedItem.modify_file p w = (.ok item, wa)) :
    (∃ c, w.nodes p = some (FsNode.file c) ∧
      item = .modifiedFile p (some w.tempNext) ∧
      (∀ x, wa.nodes x = w.nodes x) ∧
      wa.tempFile w.tempNext = some c ∧
      (∀ id, id ≠ w.tempNext → wa.tempFile id = w.tempFile id) ∧
      (∀ id, wa.tempTree id = w.tempTree id) ∧
      wa.tempNext = w.tempNext + 1) ∨
    (isFile w p = false ∧ item = .modifiedFile p none ∧
      (∀ x, wa.nodes x = w.nodes x) ∧
      (∀ id, wa.tempFile id = w.tempFile id) ∧
      (∀ id, wa.tempTree id = w.tempTree id) ∧
      wa.tempNext = w.tempNext) := by
  unfold ChangedItem.modify_file at h
  cases hf : isFile w p with
  | true =>
    rw [hf] at h
    simp only [if_true, newTempFile] at h
    obtain ⟨c, hc⟩ := (isFile_iff w p).1 hf
    have hfc : fileContent ((w.updTempFile w.tempNext (some "")).bumpTemp) p =
        some c := by
      unfold fileContent
      have : ((w.updTempFile w.tempNext (some "")).bumpTemp).nodes p =
          w.nodes p := rfl
      rw [this, hc]
    rw [hfc] at h
    simp only [Prod.mk.injEq, Except.ok.injEq] at h
    obtain ⟨hi, hw⟩ := h
    subst hi
    refine Or.inl ⟨c, hc, rfl, ?_, ?_, ?_, ?_, ?_⟩
    · intro x
      rw [← hw]
      simp [updTempFile_nodes, bumpTemp_nodes]
    · rw [← hw]
      simp [updTempFile_tempFile]
    · intro id hid
      rw [← hw]
      simp [updTempFile_tempFile, bumpTemp_tempFile, hid]
    · intro id
      rw [← hw]
      simp [updTempFile_tempTree, bumpTemp_tempTree]
    · rw [← hw]
      simp [updTempFile_tempNext, bumpTemp_tempNext]
  | false =>
    rw [hf] at h
    simp only [Bool.false_eq_true, if_false] at h
    rcases hpar : parentOf p with _ | d <;> rw [hpar] at h <;>
      simp only [Prod.mk.injEq, Except.ok.injEq] at h <;>
      obtain ⟨hi, hw⟩ := h <;> subst hi
    · exact Or.inr ⟨rfl, rfl, fun x => by rw [← hw], fun id => by rw [← hw],
        fun id => by rw [← hw], by rw [← hw]⟩
    · refine Or.inr ⟨rfl, rfl, ?_, ?_, ?_, ?_⟩
      · intro x
        rw [← hw]
        simp [addDirs_nodes]
      · intro id
        rw [← hw]
        simp [addDirs_tempFile]
      · intro id
        rw [← hw]
        simp [addDirs_tempTree]
      · rw [← hw]
        simp [addDirs_tempNext]

end RustupTx

namespace RustupTx

theorem utilsRemoveFile_eval (p : List String) (v : World) (c : String)
    (h : v.nodes p = some (FsNode.file c)) :
    utilsRemoveFile p v = (.ok (), v.updNode p none) := by
  unfold utilsRemoveFile
  rw [h]

theorem utilsRemoveDir_eval (p : List String) (v : World) (c : String)
    (h : v.nodes p = some (FsNode.tree c)) :
    utilsRemoveDir p v = (.ok (), v.updNode p none) := by
  unfold utilsRemoveDir
  rw [h]

theorem isTreeAt_of_none (v : World) (p : List String) (h : v.nodes p = none) :
    isTreeAt v p = false := by
  unfold isTreeAt
  rw [h]

theorem isTreeAt_of_file (v : World) (p : List String) (c : String)
    (h : v.nodes p = some (FsNode.file c)) : isTreeAt v p = false := by
  unfold isTreeAt
  rw [h]

theorem isFile_of_none (v : World) (p : List String) (h : v.nodes p = none) :
    isFile v p = false := by
  unfold isFile
  rw [h]

theorem isFile_of_file (v : World) (p : List String) (c : String)
    (h : v.nodes p = some (FsNode.file c)) : isFile v p = true := by
  unfold isFile
  rw [h]

theorem restoreFile_eval (i : Nat) (p : List String) (v : World) (c : String)
    (h1 : v.tempFile i = some c) (h2 : isTreeAt v p = false) :
    restoreFileFromBackup i p v =
      (.ok (), (v.updTempFile i none).updNode p (some (.file c))) := by
  unfold restoreFileFromBackup
  rw [h1, h2]
  simp

theorem restoreTree_eval (i : Nat) (p : List String) (v : World) (c : String)
    (h1 : v.tempTree i = some c) (h2 : v.nodes p = none) :
    restoreTreeFromBackup i p v =
      (.ok (), (v.updTempTree i none).updNode p (some (.tree c))) := by
  unfold restoreTreeFromBackup
  rw [h1, h2]
  simp

theorem rollbackOk_addedFile (p : List String) (w w1 : World) (c : String)
    (hw : w.nodes p = none) (h1 : w1.nodes p = some (FsNode.file c)) :
    RollbackOk p w w1 (.addedFile p) := by
  intro v hv hvf hvt
  have hv2 : v.nodes p = some (FsNode.file c) := by rw [hv, h1]
  have he : ChangedItem.roll_back (.addedFile p) v = (.ok (), v.updNode p none) :=
    utilsRemoveFile_eval p v c hv2
  rw [he]
  refine ⟨rfl, ?_, ?_, ?_, ?_⟩
  · simp [updNode_nodes, hw]
  · intro x hx
    simp [updNode_nodes, hx]
  · intro id hid
    simp [updNode_tempFile]
  · intro id hid
    simp [updNode_tempTree]

theorem rollbackOk_addedDir (p : List String) (w w1 : World) (c : String)
    (hw : w.nodes p = none) (h1 : w1.nodes p = some (FsNode.tree c)) :
    RollbackOk p w w1 (.addedDir p) := by
  intro v hv hvf hvt
  have hv2 : v.nodes p = some (FsNode.tree c) := by rw [hv, h1]
  have he : ChangedItem.roll_back (.addedDir p) v = (.ok (), v.updNode p none) :=
    utilsRemoveDir_eval p v c hv2
  rw [he]
  refine ⟨rfl, ?_, ?_, ?_, ?_⟩
  · simp [updNode_nodes, hw]
  · intro x hx
    simp [updNode_nodes, hx]
  · intro id hid
    simp [updNode_tempFile]
  · intro id hid
    simp [updNode_tempTree]

theorem rollbackOk_removedFile (p : List String) (w w1 : World) (c : String)
    (hwp : w.nodes p = some (FsNode.file c)) (h1 : w1.nodes p = none)
    (hb : w1.tempFile w.tempNext = some c) (hn1 : w.tempNext < w1.tempNext) :
    RollbackOk p w w1 (.removedFile p w.tempNext) := by
  intro v hv hvf hvt
  have hvp : v.nodes p = none := by rw [hv, h1]
  have hvb : v.tempFile w.tempNext = some c := by
    rw [hvf w.tempNext (Nat.le_refl _) hn1, hb]
  have he : ChangedItem.roll_back (.removedFile p w.tempNext) v =
      (.ok (), (v.updTempFile w.tempNext none).updNode p (some (.file c))) :=
    restoreFile_eval w.tempNext p v c hvb (isTreeAt_of_none v p hvp)
  rw [he]
  refine ⟨rfl, ?_, ?_, ?_, ?_⟩
  · simp [updNode_nodes, hwp]
  · intro x hx
    simp [updNode_nodes, updTempFile_nodes, hx]
  · intro id hid
    have : id ≠ w.tempNext := Nat.ne_of_lt hid
    simp [updNode_tempFile, updTempFile_tempFile, this]
  · intro id hid
    simp [updNode_tempTree, updTempFile_tempTree]

theorem rollbackOk_removedDir (p : List String) (w w1 : World) (c : String)
    (hwp : w.nodes p = some (FsNode.tree c)) (h1 : w1.nodes p = none)
    (hb : w1.tempTree w.tempNext = some c) (hn1 : w.tempNext < w1.tempNext) :
    RollbackOk p w w1 (.removedDir p w.tempNext) := by
  intro v hv hvf hvt
  have hvp : v.nodes p = none := by rw [hv, h1]
  have hvb : v.tempTree w.tempNext = some c := by
    rw [hvt w.tempNext (Nat.le_refl _) hn1, hb]
  have he : ChangedItem.roll_back (.removedDir p w.tempNext) v =
      (.ok (), (v.updTempTree w.tempNext none).updNode p (some (.tree c))) :=
    restoreTree_eval w.tempNext p v c hvb hvp
  rw [he]
  refine ⟨rfl, ?_, ?_, ?_, ?_⟩
  · simp [updNode_nodes, hwp]
  · intro x hx
    simp [updNode_nodes, updTempTree_nodes, hx]
  · intro id hid
    simp [updNode_tempFile, updTempTree_tempFile]
  · intro id hid
    have : id ≠ w.tempNext := Nat.ne_of_lt hid
    simp [updNode_tempTree, updTempTree_tempTree, this]

theorem rollbackOk_modifiedSome (p : List String) (w w1 : World) (c cc : String)
    (hwp : w.nodes p = some (FsNode.file c))
    (h1 : w1.nodes p = some (FsNode.file cc))
    (hb : w1.tempFile w.tempNext = some c) (hn1 : w.tempNext < w1.tempNext) :
    RollbackOk p w w1 (.modifiedFile p (some w.tempNext)) := by
  intro v hv hvf hvt
  have hvp : v.nodes p = some (FsNode.file cc) := by rw [hv, h1]
  have hvb : v.tempFile w.tempNext = some c := by
    rw [hvf w.tempNext (Nat.le_refl _) hn1, hb]
  have he : ChangedItem.roll_back (.modifiedFile p (some w.tempNext)) v =
      (.ok (), (v.updTempFile w.tempNext none).updNode p (some (.file c))) :=
    restoreFile_eval w.tempNext p v c hvb (isTreeAt_of_file v p cc hvp)
  rw [he]
  refine ⟨rfl, ?_, ?_, ?_, ?_⟩
  · simp [updNode_nodes, hwp]
  · intro x hx
    simp [updNode_nodes, updTempFile_nodes, hx]
  · intro id hid
    have : id ≠ w.tempNext := Nat.ne_of_lt hid
    simp [updNode_tempFile, updTempFile_tempFile, this]
  · intro id hid
    simp [updNode_tempTree, updTempFile_tempTree]

theorem rollbackOk_modifiedNone_same (p : List String) (w w1 : World)
    (hnf : isFile w p = false) (h1 : w1.nodes p = w.nodes p) :
    RollbackOk p w w1 (.modifiedFile p none) := by
  intro v hv hvf hvt
  have hvp : v.nodes p = w.nodes p := by rw [hv, h1]
  have hif : isFile v p = false := by
    rw [isFile_of_nodes_eq v w p hvp]
    exact hnf
  have he : ChangedItem.roll_back (.modifiedFile p none) v = (.ok (), v) := by
    show (if isFile v p then utilsRemoveFile p v else ((.ok ()), v)) = (.ok (), v)
    rw [hif]
    simp
  rw [he]
  exact ⟨rfl, hvp, fun x hx => rfl, fun id hid => rfl, fun id hid => rfl⟩

theorem rollbackOk_modifiedNone_created (p : List String) (w w1 : World)
    (c : String) (hw : w.nodes p = none)
    (h1 : w1.nodes p = some (FsNode.file c)) :
    RollbackOk p w w1 (.modifiedFile p none) := by
  intro v hv hvf hvt
  have hvp : v.nodes p = some (FsNode.file c) := by rw [hv, h1]
  have he : ChangedItem.roll_back (.modifiedFile p none) v =
      (.ok (), v.updNode p none) := by
    show (if isFile v p then utilsRemoveFile p v else ((.ok ()), v)) = _
    rw [isFile_of_file v p c hvp]
    simp
    exact utilsRemoveFile_eval p v c hvp
  rw [he]
  refine ⟨rfl, ?_, ?_, ?_, ?_⟩
  · simp [updNode_nodes, hw]
  · intro x hx
    simp [updNode_nodes, hx]
  · intro id hid
    simp [updNode_tempFile]
  · intro id hid
    simp [updNode_tempTree]

theorem callerTouch_frame (p : List String) (a : Option String) (v : World) :
    (∀ x, x ≠ p → (callerTouch p a v).nodes x = v.nodes x) ∧
    (∀ id, (callerTouch p a v).tempFile id = v.tempFile id) ∧
    (∀ id, (callerTouch p a v).tempTree id = v.tempTree id) ∧
    (callerTouch p a v).tempNext = v.tempNext := by
  cases a with
  | none => exact ⟨fun x hx => rfl, fun id => rfl, fun id => rfl, rfl⟩
  | some c =>
    unfold callerTouch callerCreateWrite
    cases hg : (pathExists v p && ! isFile v p) with
    | true => exact ⟨fun x hx => rfl, fun id => rfl, fun id => rfl, rfl⟩
    | false =>
      refine ⟨?_, fun id => rfl, fun id => rfl, rfl⟩
      intro x hx
      simp [updNode_nodes, hx]

end RustupTx

namespace RustupTx

theorem lift_ok_elim (t : Transaction) (rp : RustPath)
    (f : List String → World → Except TxErr ChangedItem × World) (w : World)
    (t1 : Transaction) (w1 : World) (hrel : rp.is_relative = true)
    (h : t.lift rp f w = (.ok (), t1, w1)) :
    ∃ item, f rp.components w = (.ok item, w1) ∧ t1 = t.change item := by
  unfold Transaction.lift at h
  rw [hrel] at h
  simp only [if_true] at h
  rcases hf : f rp.components w with ⟨res, wf⟩
  rw [hf] at h
  cases res with
  | error e => simp at h
  | ok item =>
    simp only [Prod.mk.injEq, true_and] at h
    obtain ⟨ht, hw⟩ := h
    subst hw
    exact ⟨item, rfl, ht.symm⟩

theorem applyOp_inv (o : Op) (t : Transaction) (w : World)
    (t1 : Transaction) (w1 : World) (h : applyOp o t w = some (t1, w1)) :
    t1.committed = t.committed ∧ OpFrame o.path w w1 ∧
    ∃ r, t1.changes = t.changes ++ [r] ∧ RollbackOk o.path w w1 r := by
  cases o with
  | addFile comp p content =>
    simp only [applyOp] at h
    simp only [Op.path]
    rcases hop : Transaction.add_file t comp ⟨false, p⟩ w with ⟨ot, t2, w2⟩
    rw [hop] at h
    cases ot with
    | panicked => simp at h
    | error e => simp at h
    | ok u =>
      simp only [Option.some.injEq, Prod.mk.injEq] at h
      obtain ⟨ht, hw⟩ := h
      subst ht
      subst hw
      obtain ⟨item, hitem, ht2⟩ := lift_ok_elim t ⟨false, p⟩ _ w t2 w2 rfl hop
      obtain ⟨hex, hieq, hnp, hnx, htf, htt, htn⟩ :=
        add_file_ok_inv comp p w item w2 hitem
      subst hieq
      obtain ⟨hwn, -⟩ := (pathExists_eq_false_iff w p).1 hex
      refine ⟨by rw [ht2]; rfl, ⟨?_, ?_, ?_, ?_⟩,
        ⟨.addedFile p, by rw [ht2]; rfl, ?_⟩⟩
      · simp [updNode_tempNext, htn]
      · intro x hx
        simp [updNode_nodes, hx, hnx x hx]
      · intro id hid
        simp [updNode_tempFile, htf id]
      · intro id hid
        simp [updNode_tempTree, htt id]
      · exact rollbackOk_addedFile p w _ content hwn (by simp [updNode_nodes])
  | copyFile comp p src =>
    simp only [applyOp] at h
    simp only [Op.path]
    rcases hop : Transaction.copy_file t comp ⟨false, p⟩ src w with ⟨ot, t2, w2⟩
    rw [hop] at h
    cases ot with
    | panicked => simp at h
    | error e => simp at h
    | ok u =>
      simp only [Option.some.injEq, Prod.mk.injEq] at h
      obtain ⟨ht, hw⟩ := h
      subst ht
      subst hw
      obtain ⟨item, hitem, ht2⟩ := lift_ok_elim t ⟨false, p⟩ _ w t2 w2 rfl hop
      obtain ⟨hex, hieq, ⟨c, hsrc, hnp⟩, hnx, htf, htt, htn⟩ :=
        copy_file_ok_inv comp p src w item w2 hitem
      subst hieq
      obtain ⟨hwn, -⟩ := (pathExists_eq_false_iff w p).1 hex
      refine ⟨by rw [ht2]; rfl, ⟨?_, ?_, ?_, ?_⟩,
        ⟨.addedFile p, by rw [ht2]; rfl, ?_⟩⟩
      · simp [htn]
      · intro x hx
        exact hnx x hx
      · intro id hid
        exact htf id
      · intro id hid
        exact htt id
      · exact rollbackOk_addedFile p w w2 c hwn hnp
  | copyDir comp p src =>
    simp only [applyOp] at h
    simp only [Op.path]
    rcases hop : Transaction.copy_dir t comp ⟨false, p⟩ src w with ⟨ot, t2, w2⟩
    rw [hop] at h
    cases ot with
    | panicked => simp at h
    | error e => simp at h
    | ok u =>
      simp only [Option.some.injEq, Prod.mk.injEq] at h
      obtain ⟨ht, hw⟩ := h
      subst ht
      subst hw
      obtain ⟨item, hitem, ht2⟩ := lift_ok_elim t ⟨false, p⟩ _ w t2 w2 rfl hop
      obtain ⟨hex, hieq, ⟨c, hsrc, hnp⟩, hnx, htf, htt, htn⟩ :=
        copy_dir_ok_inv comp p src w item w2 hitem
      subst hieq
      obtain ⟨hwn, -⟩ := (pathExists_eq_false_iff w p).1 hex
      refine ⟨by rw [ht2]; rfl, ⟨?_, ?_, ?_, ?_⟩,
        ⟨.addedDir p, by rw [ht2]; rfl, ?_⟩⟩
      · simp [htn]
      · intro x hx
        exact hnx x hx
      · intro id hid
        exact htf id
      · intro id hid
        exact htt id
      · exact rollbackOk_addedDir p w w2 c hwn hnp
  | moveFile comp p src =>
    simp only [applyOp] at h
    simp only [Op.path]
    rcases hop : Transaction.move_file t comp ⟨false, p⟩ src w with ⟨ot, t2, w2⟩
    rw [hop] at h
    cases ot with
    | panicked => simp at h
    | error e => simp at h
    | ok u =>
      simp only [Option.some.injEq, Prod.mk.injEq] at h
      obtain ⟨ht, hw⟩ := h
      subst ht
      subst hw
      obtain ⟨item, hitem, ht2⟩ := lift_ok_elim t ⟨false, p⟩ _ w t2 w2 rfl hop
      obtain ⟨hex, hieq, ⟨c, hsrc, hnp⟩, hnx, htf, htt, htn⟩ :=
        move_file_ok_inv comp p src w item w2 hitem
      subst hieq
      obtain ⟨hwn, -⟩ := (pathExists_eq_false_iff w p).1 hex
      refine ⟨by rw [ht2]; rfl, ⟨?_, ?_, ?_, ?_⟩,
        ⟨.addedFile p, by rw [ht2]; rfl, ?_⟩⟩
      · simp [htn]
      · intro x hx
        exact hnx x hx
      · intro id hid
        exact htf id
      · intro id hid
        exact htt id
      · exact rollbackOk_addedFile p w w2 c hwn hnp
  | moveDir comp p src =>
    simp only [applyOp] at h
    simp only [Op.path]
    rcases hop : Transaction.move_dir t comp ⟨false, p⟩ src w with ⟨ot, t2, w2⟩
    rw [hop] at h
    cases ot with
    | panicked => simp at h
    | error e => simp at h
    | ok u =>
      simp only [Option.some.injEq, Prod.mk.injEq] at h
      obtain ⟨ht, hw⟩ := h
      subst ht
      subst hw
      obtain ⟨item, hitem, ht2⟩ := lift_ok_elim t ⟨false, p⟩ _ w t2 w2 rfl hop
      obtain ⟨hex, hieq, ⟨c, hsrc, hnp⟩, hnx, htf, htt, htn⟩ :=
        move_dir_ok_inv comp p src w item w2 hitem
      subst hieq
      obtain ⟨hwn, -⟩ := (pathExists_eq_false_iff w p).1 hex
      refine ⟨by rw [ht2]; rfl, ⟨?_, ?_, ?_, ?_⟩,
        ⟨.addedDir p, by rw [ht2]; rfl, ?_⟩⟩
      · simp [htn]
      · intro x hx
        exact hnx x hx
      · intro id hid
        exact htf id
      · intro id hid
        exact htt id
      · exact rollbackOk_addedDir p w w2 c hwn hnp
  | removeFile comp p =>
    simp only [applyOp] at h
    simp only [Op.path]
    rcases hop : Transaction.remove_file t comp ⟨false, p⟩ w with ⟨ot, t2, w2⟩
    rw [hop] at h
    cases ot with
    | panicked => simp at h
    | error e => simp at h
    | ok u =>
      simp only [Option.some.injEq, Prod.mk.injEq] at h
      obtain ⟨ht, hw⟩ := h
      subst ht
      subst hw
      obtain ⟨item, hitem, ht2⟩ := lift_ok_elim t ⟨false, p⟩ _ w t2 w2 rfl hop
      obtain ⟨c, hc, hieq, hnp, hnx, hbf, hfo, htt, htn⟩ :=
        remove_file_ok_inv comp p w item w2 hitem
      subst hieq
      refine ⟨by rw [ht2]; rfl, ⟨?_, ?_, ?_, ?_⟩,
        ⟨.removedFile p w.tempNext, by rw [ht2]; rfl, ?_⟩⟩
      · rw [htn]
        exact Nat.le_succ _
      · intro x hx
        exact hnx x hx
      · intro id hid
        exact hfo id (Nat.ne_of_lt hid)
      · intro id hid
        exact htt id
      · exact rollbackOk_removedFile p w w2 c hc hnp hbf (by rw [htn]; omega)
  | removeDir comp p =>
    simp only [applyOp] at h
    simp only [Op.path]
    rcases hop : Transaction.remove_dir t comp ⟨false, p⟩ w with ⟨ot, t2, w2⟩
    rw [hop] at h
    cases ot with
    | panicked => simp at h
    | error e => simp at h
    | ok u =>
      simp only [Option.some.injEq, Prod.mk.injEq] at h
      obtain ⟨ht, hw⟩ := h
      subst ht
      subst hw
      obtain ⟨item, hitem, ht2⟩ := lift_ok_elim t ⟨false, p⟩ _ w t2 w2 rfl hop
      obtain ⟨c, hc, hieq, hnp, hnx, hbt, hto, htf, htn⟩ :=
        remove_dir_ok_inv comp p w item w2 hitem
      subst hieq
      refine ⟨by rw [ht2]; rfl, ⟨?_, ?_, ?_, ?_⟩,
        ⟨.removedDir p w.tempNext, by rw [ht2]; rfl, ?_⟩⟩
      · rw [htn]
        exact Nat.le_succ _
      · intro x hx
        exact hnx x hx
      · intro id hid
        exact htf id
      · intro id hid
        exact hto id (Nat.ne_of_lt hid)
      · exact rollbackOk_removedDir p w w2 c hc hnp hbt (by rw [htn]; omega)
  | modifyFile p a =>
    simp only [applyOp] at h
    simp only [Op.path]
    rcases hop : Transaction.modify_file t ⟨false, p⟩ w with ⟨ot, t2, w2⟩
    rw [hop] at h
    cases ot with
    | panicked => simp at h
    | error e => simp at h
    | ok u =>
      simp only [Option.some.injEq, Prod.mk.injEq] at h
      obtain ⟨ht, hw⟩ := h
      subst ht
      subst hw
      obtain ⟨item, hitem, ht2⟩ := lift_ok_elim t ⟨false, p⟩ _ w t2 w2 rfl hop
      obtain ⟨cfn, cff, cft, cfx⟩ := callerTouch_frame p a w2
      rcases modify_file_ok_inv p w item w2 hitem with
        ⟨c, hc, hieq, hnx, hbf, hfo, htt, htn⟩ |
        ⟨hnf, hieq, hnx, htf, htt, htn⟩
      · subst hieq
        refine ⟨by rw [ht2]; rfl, ⟨?_, ?_, ?_, ?_⟩,
          ⟨.modifiedFile p (some w.tempNext), by rw [ht2]; rfl, ?_⟩⟩
        · rw [cfx, htn]
          exact Nat.le_succ _
        · intro x hx
          rw [cfn x hx, hnx x]
        · intro id hid
          rw [cff id]
          exact hfo id (Nat.ne_of_lt hid)
        · intro id hid
          rw [cft id]
          exact htt id
        · have hn2 : w2.nodes p = some (FsNode.file c) := by rw [hnx p, hc]
          have hcc : ∃ cc,
              (callerTouch p a w2).nodes p = some (FsNode.file cc) := by
            cases a with
            | none => exact ⟨c, hn2⟩
            | some cnew =>
              have hif : isFile w2 p = true := isFile_of_file w2 p c hn2
              have hg : (pathExists w2 p && ! isFile w2 p) = false := by
                simp [hif]
              simp only [callerTouch, callerCreateWrite, hg]
              exact ⟨cnew, by simp [updNode_nodes]⟩
          obtain ⟨cc, hcc⟩ := hcc
          refine rollbackOk_modifiedSome p w _ c cc hc hcc ?_ ?_
          · rw [cff w.tempNext]
            exact hbf
          · rw [cfx, htn]
            omega
      · subst hieq
        refine ⟨by rw [ht2]; rfl, ⟨?_, ?_, ?_, ?_⟩,
          ⟨.modifiedFile p none, by rw [ht2]; rfl, ?_⟩⟩
        · rw [cfx, htn]
        · intro x hx
          rw [cfn x hx, hnx x]
        · intro id hid
          rw [cff id, htf id]
        · intro id hid
          rw [cft id, htt id]
        · have hif2 : isFile w2 p = false := by
            rw [isFile_of_nodes_eq w2 w p (hnx p)]
            exact hnf
          cases a with
          | none =>
            exact rollbackOk_modifiedNone_same p w w2 hnf (hnx p)
          | some cnew =>
            cases hg : (pathExists w2 p && ! isFile w2 p) with
            | true =>
              have hsame : (callerTouch p (some cnew) w2) = w2 := by
                simp [callerTouch, callerCreateWrite, hg]
              rw [hsame]
              exact rollbackOk_modifiedNone_same p w w2 hnf (hnx p)
            | false =>
              have hpe : pathExists w2 p = false := by
                simpa [hif2] using hg
              obtain ⟨hw2n, -⟩ := (pathExists_eq_false_iff w2 p).1 hpe
              have hwn : w.nodes p = none := by rw [← hnx p, hw2n]
              have hcre : (callerTouch p (some cnew) w2) =
                  w2.updNode p (some (FsNode.file cnew)) := by
                simp [callerTouch, callerCreateWrite, hg]
              rw [hcre]
              exact rollbackOk_modifiedNone_created p w _ cnew hwn
                (by simp [updNode_nodes])

end RustupTx

namespace RustupTx

theorem rollBackAll_world_cons (x : ChangedItem) (l : List ChangedItem)
    (w : World) :
    (rollBackAll (x :: l) w).1 =
      (rollBackAll l (ChangedItem.roll_back x w).2).1 := by
  simp only [rollBackAll]
  cases h : (ChangedItem.roll_back x w).1 <;> simp [h]

theorem rollBackAll_world_single (r : ChangedItem) (w : World) :
    (rollBackAll [r] w).1 = (ChangedItem.roll_back r w).2 := by
  simp only [rollBackAll]
  cases h : (ChangedItem.roll_back r w).1 <;> simp [h]

theorem rollBackAll_world_append (xs ys : List ChangedItem) (w : World) :
    (rollBackAll (xs ++ ys) w).1 = (rollBackAll ys (rollBackAll xs w).1).1 := by
  induction xs generalizing w with
  | nil => rfl
  | cons x xs ih =>
    rw [List.cons_append, rollBackAll_world_cons, rollBackAll_world_cons, ih]

theorem runOps_restore (os : List Op) (t : Transaction) (w : World)
    (t1 : Transaction) (w1 : World) (h : runOps os t w = some (t1, w1)) :
    t1.committed = t.committed ∧
    w.tempNext ≤ w1.tempNext ∧
    (∀ id, id < w.tempNext → w1.tempFile id = w.tempFile id) ∧
    (∀ id, id < w.tempNext → w1.tempTree id = w.tempTree id) ∧
    ∃ L, t1.changes = t.changes ++ L ∧
      ∀ v, (∀ x, v.nodes x = w1.nodes x) →
        (∀ id, w.tempNext ≤ id → id < w1.tempNext →
          v.tempFile id = w1.tempFile id) →
        (∀ id, w.tempNext ≤ id → id < w1.tempNext →
          v.tempTree id = w1.tempTree id) →
        (∀ x, (rollBackAll L.reverse v).1.nodes x = w.nodes x) ∧
        (∀ id, id < w.tempNext →
          (rollBackAll L.reverse v).1.tempFile id = v.tempFile id) ∧
        (∀ id, id < w.tempNext →
          (rollBackAll L.reverse v).1.tempTree id = v.tempTree id) := by
  induction os generalizing t w t1 w1 with
  | nil =>
    simp only [runOps, Option.some.injEq, Prod.mk.injEq] at h
    obtain ⟨ht, hw⟩ := h
    subst ht
    subst hw
    refine ⟨rfl, Nat.le_refl _, fun id hid => rfl, fun id hid => rfl,
      [], (List.append_nil _).symm, ?_⟩
    intro v hv hvf hvt
    exact ⟨fun x => hv x, fun id hid => rfl, fun id hid => rfl⟩
  | cons o os ih =>
    simp only [runOps] at h
    rcases hap : applyOp o t w with _ | ⟨t2, w2⟩
    · rw [hap] at h
      simp at h
    · rw [hap] at h
      simp only at h
      obtain ⟨hc1, hof, r, hch, hrok⟩ := applyOp_inv o t w t2 w2 hap
      unfold OpFrame at hof
      obtain ⟨hle, hnx, hfr, htr⟩ := hof
      obtain ⟨hc2, hle2, hfr2, htr2, L', hch2, hrb2⟩ := ih t2 w2 t1 w1 h
      refine ⟨hc2.trans hc1, Nat.le_trans hle hle2, ?_, ?_,
        r :: L', ?_, ?_⟩
      · intro id hid
        rw [hfr2 id (Nat.lt_of_lt_of_le hid hle), hfr id hid]
      · intro id hid
        rw [htr2 id (Nat.lt_of_lt_of_le hid hle), htr id hid]
      · rw [hch2, hch, List.append_assoc]
        rfl
      · intro v hv hvf hvt
        have hIH := hrb2 v hv
          (fun id h1 h2 => hvf id (Nat.le_trans hle h1) h2)
          (fun id h1 h2 => hvt id (Nat.le_trans hle h1) h2)
        obtain ⟨hA_nodes, hA_tf, hA_tt⟩ := hIH
        have hRK := hrok (rollBackAll L'.reverse v).1 (hA_nodes o.path) ?htf ?htt
        case htf =>
          intro id h1 h2
          rw [hA_tf id h2, hvf id h1 (Nat.lt_of_lt_of_le h2 hle2), hfr2 id h2]
        case htt =>
          intro id h1 h2
          rw [hA_tt id h2, hvt id h1 (Nat.lt_of_lt_of_le h2 hle2), htr2 id h2]
        obtain ⟨hr_ok, hr_p, hr_x, hr_tf, hr_tt⟩ := hRK
        have hworld : (rollBackAll (r :: L').reverse v).1 =
            (ChangedItem.roll_back r (rollBackAll L'.reverse v).1).2 := by
          rw [List.reverse_cons, rollBackAll_world_append,
            rollBackAll_world_single]
        refine ⟨?_, ?_, ?_⟩
        · intro x
          rw [hworld]
          by_cases hx : x = o.path
          · rw [hx]
            exact hr_p
          · rw [hr_x x hx, hA_nodes x]
            exact hnx x hx
        · intro id hid
          rw [hworld, hr_tf id hid, hA_tf id (Nat.lt_of_lt_of_le hid hle)]
        · intro id hid
          rw [hworld, hr_tt id hid, hA_tt id (Nat.lt_of_lt_of_le hid hle)]

end RustupTx

namespace RustupTx

/-- Claim C1: for every script of transaction operations on pairwise
disjoint relative paths that all succeed from a fresh Transaction, dropping
the Transaction without commit restores every node of the install-prefix
subtree (files and atomically placed trees, existence and content) to its
pre-transaction state; no inversion step fails along the way, and only the
intermediate directories of ensure_dir_exists may be left behind. -/
theorem c1_rollback_restores (ops : List Op) (w : World) (q : List String)
    (hdisj : List.Pairwise PathDisj (ops.map Op.path))
    (hsome : (runOps ops Transaction.new w).isSome = true) :
    afterRollbackNodes ops w q = some (w.nodes q) := by
  rcases hrun : runOps ops Transaction.new w with _ | ⟨t1, w1⟩
  · rw [hrun] at hsome
    simp at hsome
  · obtain ⟨hcom, hle, hfr, htr, L, hch, hrb⟩ :=
      runOps_restore ops Transaction.new w t1 w1 hrun
    have hcom0 : t1.committed = false := hcom
    have hch0 : t1.changes = L := by simpa using hch
    obtain ⟨hn, -, -⟩ := hrb w1 (fun x => rfl) (fun id h1 h2 => rfl)
      (fun id h1 h2 => rfl)
    unfold afterRollbackNodes
    rw [hrun]
    simp only [Option.map_some']
    have hdrop : (Transaction.drop t1 w1).1 =
        (rollBackAll t1.changes.reverse w1).1 := by
      unfold Transaction.drop
      rw [hcom0]
      simp
    rw [hdrop, hch0]
    exact congrArg some (hn q)

theorem c1_rollback_restores_witness :
    List.Pairwise PathDisj ([Op.addFile "c" ["a"] "x", Op.removeFile "c" ["b"],
      Op.modifyFile ["d"] (some "z")].map Op.path) ∧
    (runOps [Op.addFile "c" ["a"] "x", Op.removeFile "c" ["b"],
      Op.modifyFile ["d"] (some "z")] Transaction.new
      (World.empty.updNode ["b"] (some (FsNode.file "old")))).isSome = true ∧
    afterRollbackNodes [Op.addFile "c" ["a"] "x", Op.removeFile "c" ["b"],
        Op.modifyFile ["d"] (some "z")]
      (World.empty.updNode ["b"] (some (FsNode.file "old"))) ["b"] =
      some ((World.empty.updNode ["b"] (some (FsNode.file "old"))).nodes ["b"]) := by
  refine ⟨by decide, by decide, ?_⟩
  exact c1_rollback_restores _ _ ["b"] (by decide) (by decide)

end RustupTx
